import Mathlib

/-!
# ASSOOFS: a shallow embedding of `assoofs.c`

The kernel module keeps three kinds of persistent data:

* block 0, the superblock (`struct assoofs_super_block_info`), reachable in
  memory through `sb->s_fs_info`;
* block 1, the inode store, an array of `struct assoofs_inode_info`;
* data blocks, one per file or directory, accessed as raw bytes
  (`assoofs_read`, `assoofs_write`) or as an array of
  `struct assoofs_dir_record_entry` (`assoofs_iterate`, `assoofs_lookup`,
  `assoofs_create`, `assoofs_mkdir`).

The header `assoofs.h` is not among the sources, so the constants and the
record layout it declares are parameters (`Layout`).  Machine integers are
natural numbers, reduced modulo `2 ^ 64` where the C code can wrap.
-/

namespace Assoofs

/-! ## Constants -/

/-- The object-count ceiling; the source repeats its value as `/* (64) */`. -/
def ASSOOFS_MAX_FILESYSTEM_OBJECTS_SUPPORTED : Nat := 64

/-- Inode number of the root directory; the source repeats its value as `(1)`. -/
def ASSOOFS_ROOTDIR_INODE_NUMBER : Nat := 1

/-- Linux errno `EPERM`. -/
def EPERM : Int := 1

/-- Linux `S_IFDIR`, the directory type tag (octal 0040000). -/
def S_IFDIR : Nat := 16384

/-- Linux `S_IFREG`, the regular-file type tag (octal 0100000). -/
def S_IFREG : Nat := 32768

/-- Number of values of a `uint64_t`. -/
def U64 : Nat := 18446744073709551616

/-- What `assoofs.h` declares and the source only names: the two constants
checked at mount time, the width of the filename field, and the layout of
`struct assoofs_dir_record_entry` (the filename field starts the record; the
`inode_no` field, eight bytes, starts at `inode_no_off`; the record is
`entry_size` bytes long). -/
structure Layout where
  ASSOOFS_MAGIC : Nat
  ASSOOFS_DEFAULT_BLOCK_SIZE : Nat
  ASSOOFS_FILENAME_MAXLEN : Nat
  inode_no_off : Nat
  entry_size : Nat

/-- The fields of a directory record do not overlap and lie inside the record,
and the block size is a `uint64_t`. -/
def Layout.WF (L : Layout) : Prop :=
  0 < L.ASSOOFS_FILENAME_MAXLEN ∧ L.ASSOOFS_FILENAME_MAXLEN ≤ L.inode_no_off ∧
    L.inode_no_off + 8 ≤ L.entry_size ∧ L.ASSOOFS_DEFAULT_BLOCK_SIZE < U64

instance (L : Layout) : Decidable L.WF := by
  unfold Layout.WF; infer_instance

/-- The layout a 64-bit build gives `char filename[255]; uint64_t inode_no;`
in 4096-byte blocks. -/
def stdLayout : Layout :=
  { ASSOOFS_MAGIC := 538969094
    ASSOOFS_DEFAULT_BLOCK_SIZE := 4096
    ASSOOFS_FILENAME_MAXLEN := 255
    inode_no_off := 256
    entry_size := 264 }

/-! ## Data model -/

/-- The record `struct assoofs_super_block_info` (all fields `uint64_t`). -/
structure assoofs_super_block_info where
  version : Nat
  magic : Nat
  block_size : Nat
  inodes_count : Nat
  free_blocks : Nat
  deriving DecidableEq, Repr

/-- The record `struct assoofs_inode_info`. -/
structure assoofs_inode_info where
  mode : Nat
  inode_no : Nat
  data_block_number : Nat
  file_size : Nat
  dir_children_count : Nat
  deriving DecidableEq, Repr

/-- A block seen as bytes: offset to byte value.  The offsets are not bounded
by the block size here, while the buffer of a block in the source is
`ASSOOFS_DEFAULT_BLOCK_SIZE` bytes long: what is stated about a write holds
for the source where the write lies inside the block, and the theorems say so
in their hypotheses. -/
abbrev Block := Nat → Nat

/-- The mounted filesystem: the superblock record behind `sb->s_fs_info`, the
inode store (block 1) as an array of records, and the data blocks by block
number.  In the source `s_fs_info` is the buffer of block 0 and the inode
store the buffer of block 1; here they are components of their own, so a
write through `blocks 0` or `blocks 1` does not reach them: what is stated
about a write to a data block holds for the source where the block number is
2 or more, as the allocator's are. -/
structure FS where
  sb : assoofs_super_block_info
  inodestore : Nat → assoofs_inode_info
  blocks : Nat → Block

/-! ## Free-block allocator -/

/-- The C expression `1 << i` with `int i`: a 32-bit signed value.  For
`i < 31` it is `2 ^ i`; for `i = 31` the sign bit (`INT_MIN`, as gcc defines
it); for a count of 32 or more the x86 shift instruction uses the count
modulo 32. -/
def int_shl1 (i : Nat) : Int :=
  if i % 32 < 31 then (2 : Int) ^ (i % 32) else -(2 : Int) ^ 31

/-- The C operator `~` on an `int`. -/
def int_not (x : Int) : Int := -x - 1

/-- Conversion of an `int` to `uint64_t` (sign extension). -/
def to_u64 (x : Int) : Nat := (x % (U64 : Int)).toNat

/-- The scanning loop of `assoofs_sb_get_a_freeblock`:
`for (; i < 64; i++) if (free_blocks & (1 << i)) break;`, returning the final
`i`.  `fuel` bounds the number of iterations. -/
def freeblock_loop (free_blocks : Nat) : Nat → Nat → Nat
  | 0, i => i
  | fuel + 1, i =>
    if i < ASSOOFS_MAX_FILESYSTEM_OBJECTS_SUPPORTED then
      if free_blocks &&& to_u64 (int_shl1 i) ≠ 0 then i
      else freeblock_loop free_blocks fuel (i + 1)
    else i

/-- The function `assoofs_sb_get_a_freeblock`: returns the return code, the
value stored in `*block`, and the updated superblock record. -/
def assoofs_sb_get_a_freeblock (sb : assoofs_super_block_info) :
    Int × Nat × assoofs_super_block_info :=
  let i := freeblock_loop sb.free_blocks ASSOOFS_MAX_FILESYSTEM_OBJECTS_SUPPORTED 2
  (0, i, { sb with free_blocks := sb.free_blocks &&& to_u64 (int_not (int_shl1 i)) })

/-- Persisting the superblock (`assoofs_save_sb_info`): the record behind
`s_fs_info` is the one written to block 0, so the model keeps one record. -/
def assoofs_save_sb_info (sb : assoofs_super_block_info) : assoofs_super_block_info := sb

/-! ## Memory primitives -/

/-- Array or block with one cell replaced. -/
def set_at {α : Type} (f : Nat → α) (i : Nat) (v : α) : Nat → α :=
  fun j => if j = i then v else f j

/-- Storing a `uint64_t` at byte offset `off` (little-endian, as on x86). -/
def store64 (b : Block) (off v : Nat) : Block :=
  fun a => if off ≤ a ∧ a < off + 8 then v / 256 ^ (a - off) % 256 else b a

/-- Loading a `uint64_t` from byte offset `off`. -/
def load64 (b : Block) (off : Nat) : Nat :=
  b off + 256 * (b (off + 1) + 256 * (b (off + 2) + 256 * (b (off + 3) + 256 * (b (off + 4)
    + 256 * (b (off + 5) + 256 * (b (off + 6) + 256 * b (off + 7)))))))

/-- The characters of a C string: the bytes before the first NUL. -/
def cstr (s : List Nat) : List Nat := s.takeWhile (fun c => c != 0)

/-- Copying `src.length` bytes to offset `dst` (`copy_from_user`, and the body
of `strcpy`). -/
def write_bytes (b : Block) (dst : Nat) (src : List Nat) : Block :=
  fun a => if dst ≤ a ∧ a < dst + src.length then src.getD (a - dst) 0 else b a

/-- The C function `strcpy(dst, src)`: the characters of `src`, then a NUL. -/
def strcpy (b : Block) (dst : Nat) (src : List Nat) : Block :=
  write_bytes b dst (cstr src ++ [0])

/-- Reading `n` bytes from offset `off` (`copy_to_user`). -/
def read_bytes (b : Block) (off n : Nat) : List Nat :=
  (List.range n).map (fun j => b (off + j))

/-- The comparison `strcmp(p, s) == 0`, `p` a string in the block at offset
`off` and `s` given by its characters. -/
def strcmp_eq (b : Block) : Nat → List Nat → Bool
  | off, [] => b off == 0
  | off, c :: cs => if c = 0 then b off == 0 else b off == c && strcmp_eq b (off + 1) cs

/-- Conversion of a 64-bit value to `int` and back to a 64-bit unsigned value,
as happens to the inode number passed through `assoofs_get_inode (sb, int ino)`. -/
def through_int (v : Nat) : Nat :=
  if v % 4294967296 < 2147483648 then v % 4294967296
  else v % 4294967296 + (U64 - 4294967296)

/-- Conversion of a `size_t` to `int`. -/
def to_int (v : Nat) : Int :=
  if v % 4294967296 < 2147483648 then (v % 4294967296 : Nat) else (v % 4294967296 : Nat) - 4294967296

/-! ## Inode store -/

/-- The loop of `assoofs_get_inode_info`: scan slots `i, i + 1, ...` of the
store, `n` of them, for the first record with the given number. -/
def get_inode_info_loop (store : Nat → assoofs_inode_info) (inode_no : Nat) :
    Nat → Nat → Option assoofs_inode_info
  | 0, _ => none
  | n + 1, i =>
    if (store i).inode_no = inode_no then some (store i)
    else get_inode_info_loop store inode_no n (i + 1)

/-- The function `assoofs_get_inode_info`: a copy of the first record among
slots `[0, inodes_count)` with the given number, or `NULL`. -/
def assoofs_get_inode_info (st : FS) (inode_no : Nat) : Option assoofs_inode_info :=
  get_inode_info_loop st.inodestore inode_no st.sb.inodes_count 0

/-- The loop of `assoofs_search_inode_info`:
`while (start->inode_no != search->inode_no && count < inodes_count) { count++; start++; }`,
returning the final `count`. -/
def search_loop (store : Nat → assoofs_inode_info) (inode_no inodes_count : Nat) :
    Nat → Nat → Nat
  | 0, count => count
  | fuel + 1, count =>
    if (store count).inode_no ≠ inode_no ∧ count < inodes_count then
      search_loop store inode_no inodes_count fuel (count + 1)
    else count

/-- The function `assoofs_search_inode_info`: the slot index the returned
pointer designates, or `none` for `NULL`. -/
def assoofs_search_inode_info (st : FS) (search : assoofs_inode_info) : Option Nat :=
  let pos := search_loop st.inodestore search.inode_no st.sb.inodes_count st.sb.inodes_count 0
  if (st.inodestore pos).inode_no = search.inode_no then some pos else none

/-- The function `assoofs_save_inode_info`: return code and resulting state. -/
def assoofs_save_inode_info (st : FS) (inode_info : assoofs_inode_info) : Int × FS :=
  match assoofs_search_inode_info st inode_info with
  | none => (-EPERM, st)
  | some pos => (0, { st with inodestore := set_at st.inodestore pos inode_info })

/-- The function `assoofs_add_inode_info`: the record goes to slot
`inodes_count`, then the count is incremented and the superblock saved. -/
def assoofs_add_inode_info (st : FS) (inode : assoofs_inode_info) : FS :=
  { st with
    inodestore := set_at st.inodestore st.sb.inodes_count inode
    sb := assoofs_save_sb_info { st.sb with inodes_count := (st.sb.inodes_count + 1) % U64 } }

/-! ## File operations -/

/-- What `assoofs_read` produces: its return value, the bytes handed to
`copy_to_user`, and the new value of `*ppos`. -/
structure ReadResult where
  ret : Int
  buf : List Nat
  ppos : Int
  deriving DecidableEq, Repr

/-- The function `assoofs_read`, called on the file whose in-memory record is
`inode_info`, with a request of `len` bytes at position `ppos`. -/
def assoofs_read (st : FS) (inode_info : assoofs_inode_info) (len ppos : Nat) : ReadResult :=
  if ppos ≥ inode_info.file_size then { ret := 0, buf := [], ppos := ppos }
  else
    let buffer := st.blocks inode_info.data_block_number
    let nbytes : Int := to_int (min inode_info.file_size len)
    { ret := nbytes, buf := read_bytes buffer 0 nbytes.toNat, ppos := ppos + nbytes }

/-- What `assoofs_write` produces: its return value, the new value of `*ppos`,
the in-memory record of the file afterwards, and the resulting state. -/
structure WriteResult where
  ret : Nat
  ppos : Nat
  inode_info : assoofs_inode_info
  fs : FS

/-- The function `assoofs_write`, called on the file whose in-memory record is
`inode_info`, with the user bytes `buf` (their number is `len`) at position
`ppos`.  The result of `assoofs_save_inode_info` is not looked at. -/
def assoofs_write (st : FS) (inode_info : assoofs_inode_info) (buf : List Nat) (ppos : Nat) :
    WriteResult :=
  let len := buf.length
  let buffer := write_bytes (st.blocks inode_info.data_block_number) ppos buf
  let ppos1 := ppos + len
  let st1 : FS := { st with blocks := set_at st.blocks inode_info.data_block_number buffer }
  let inode_info1 := { inode_info with file_size := ppos1 }
  { ret := len, ppos := ppos1, inode_info := inode_info1
    fs := (assoofs_save_inode_info st1 inode_info1).2 }

/-! ## Directory operations -/

/-- A `struct dir_context`: the cursor `pos`, and what `dir_emit` has been
given so far, oldest first (name bytes, inode number). -/
structure dir_context where
  pos : Nat
  emitted : List (List Nat × Nat)
  deriving DecidableEq, Repr

/-- The scan of `assoofs_lookup`: among `n` records starting with record `i`,
the `inode_no` field of the first one whose filename compares equal. -/
def lookup_loop (L : Layout) (bh : Block) (name : List Nat) : Nat → Nat → Option Nat
  | 0, _ => none
  | n + 1, i =>
    if strcmp_eq bh (i * L.entry_size) name then some (load64 bh (i * L.entry_size + L.inode_no_off))
    else lookup_loop L bh name n (i + 1)

/-- What `assoofs_lookup` leaves behind: no inode attached to the dentry
(`not_found`); an inode attached by `d_add`, with its number and private
record (`attached`); or a `NULL` record dereferenced on the way, when the
inode store holds no record of that number (`null_deref`). -/
inductive LookupResult where
  | not_found
  | null_deref
  | attached (i_ino : Nat) (i_private : assoofs_inode_info)
  deriving DecidableEq, Repr

/-- The function `assoofs_get_inode`: the record found for `ino`, which the
function dereferences. -/
def assoofs_get_inode (st : FS) (ino : Nat) : LookupResult :=
  match assoofs_get_inode_info st (through_int ino) with
  | none => LookupResult.null_deref
  | some inode_info => LookupResult.attached (through_int ino) inode_info

/-- The function `assoofs_lookup` in the directory whose in-memory record is
`parent_info`. -/
def assoofs_lookup (L : Layout) (st : FS) (parent_info : assoofs_inode_info)
    (name : List Nat) : LookupResult :=
  match lookup_loop L (st.blocks parent_info.data_block_number) name
      parent_info.dir_children_count 0 with
  | none => LookupResult.not_found
  | some ino => assoofs_get_inode st ino

/-! ## Creation of files and directories -/

/-- What `assoofs_create` and `assoofs_mkdir` produce: the return code, the
resulting state, the in-memory record of the parent afterwards, and the
in-memory record of the new inode when one was set up. -/
structure CreateResult where
  ret : Int
  fs : FS
  dir : assoofs_inode_info
  inode : Option assoofs_inode_info

/-- Steps 2 and 3 shared by `assoofs_create` and `assoofs_mkdir`: write the
directory record at slot `dir_children_count` of the parent's block
(`inode_no` first, then `strcpy` of the name), increment the parent's count
and save the parent's record. -/
def append_dir_entry (L : Layout) (st : FS) (parent_inode_info inode_info : assoofs_inode_info)
    (name : List Nat) : CreateResult :=
  let bh := st.blocks parent_inode_info.data_block_number
  let slot := parent_inode_info.dir_children_count * L.entry_size
  let bh1 := store64 bh (slot + L.inode_no_off) inode_info.inode_no
  let bh2 := strcpy bh1 slot name
  let st1 : FS := { st with blocks := set_at st.blocks parent_inode_info.data_block_number bh2 }
  let parent1 := { parent_inode_info with
    dir_children_count := (parent_inode_info.dir_children_count + 1) % U64 }
  { ret := 0, fs := (assoofs_save_inode_info st1 parent1).2, dir := parent1
    inode := some inode_info }

/-- The part of `assoofs_create` and `assoofs_mkdir` after the new in-memory
record is filled in: take a block, add the record to the store, append the
directory record. -/
def finish_create (L : Layout) (st : FS) (dir inode_info : assoofs_inode_info)
    (name : List Nat) : CreateResult :=
  let r := assoofs_sb_get_a_freeblock st.sb
  let inode_info1 := { inode_info with data_block_number := r.2.1 }
  let st1 : FS := { st with sb := r.2.2 }
  if r.1 ≠ 0 then { ret := -EPERM, fs := st1, dir := dir, inode := some inode_info1 }
  else append_dir_entry L (assoofs_add_inode_info st1 inode_info1) dir inode_info1 name

/-- The function `assoofs_create`.  `dir` is the in-memory record of the
parent, `name` the dentry name, `obj` the object `kmem_cache_alloc` returns,
whose fields the function then assigns (it leaves `dir_children_count`
as found). -/
def assoofs_create (L : Layout) (st : FS) (dir : assoofs_inode_info) (name : List Nat)
    (mode : Nat) (obj : assoofs_inode_info) : CreateResult :=
  let count := st.sb.inodes_count
  if count ≥ ASSOOFS_MAX_FILESYSTEM_OBJECTS_SUPPORTED then
    { ret := -EPERM, fs := st, dir := dir, inode := none }
  else
    let inode_info := { obj with inode_no := count + 1, mode := mode, file_size := 0 }
    finish_create L st dir inode_info name

/-- The function `assoofs_mkdir`, with the same arguments as `assoofs_create`. -/
def assoofs_mkdir (L : Layout) (st : FS) (dir : assoofs_inode_info) (name : List Nat)
    (mode : Nat) (obj : assoofs_inode_info) : CreateResult :=
  let count := st.sb.inodes_count
  if count ≥ ASSOOFS_MAX_FILESYSTEM_OBJECTS_SUPPORTED then
    { ret := -EPERM, fs := st, dir := dir, inode := none }
  else
    let inode_info := { obj with
      inode_no := count + 1, dir_children_count := 0, mode := S_IFDIR ||| mode, file_size := 0 }
    finish_create L st dir inode_info name

/-! ## Mount -/

/-- The two messages `assoofs_fill_super` logs before giving up. -/
inductive FillSuperError where
  | magic_mismatch
  | block_size_mismatch
  deriving DecidableEq, Repr

/-- The `struct super_block` after `assoofs_fill_super`, and what the call
returned: `err` is the error logged, `s_fs_info` the record installed, `s_op`
whether the operations table was installed, `s_root` the private record of
the root inode when a root inode was made. -/
structure FillSuperResult where
  ret : Int
  err : Option FillSuperError
  s_magic : Option Nat
  s_maxbytes : Option Nat
  s_op : Bool
  s_fs_info : Option assoofs_super_block_info
  s_root : Option (Option assoofs_inode_info)
  deriving DecidableEq, Repr

/-- The function `assoofs_fill_super`, given the content of the device: the
record in block 0 is `dev.sb`. -/
def assoofs_fill_super (L : Layout) (dev : FS) : FillSuperResult :=
  let assoofs_sb := dev.sb
  if assoofs_sb.magic ≠ L.ASSOOFS_MAGIC then
    { ret := -1, err := some FillSuperError.magic_mismatch, s_magic := none, s_maxbytes := none
      s_op := false, s_fs_info := none, s_root := none }
  else if assoofs_sb.block_size ≠ L.ASSOOFS_DEFAULT_BLOCK_SIZE then
    { ret := -1, err := some FillSuperError.block_size_mismatch, s_magic := none
      s_maxbytes := none, s_op := false, s_fs_info := none, s_root := none }
  else
    { ret := 0, err := none, s_magic := some L.ASSOOFS_MAGIC
      s_maxbytes := some L.ASSOOFS_DEFAULT_BLOCK_SIZE, s_op := true
      s_fs_info := some assoofs_sb
      s_root := some (assoofs_get_inode_info dev ASSOOFS_ROOTDIR_INODE_NUMBER) }

/-! ## Sequences of calls -/

/-- The block indices returned by `N` successive calls of the allocator. -/
def alloc_seq (sb : assoofs_super_block_info) : Nat → List Nat
  | 0 => []
  | n + 1 =>
    let r := assoofs_sb_get_a_freeblock sb
    r.2.1 :: alloc_seq r.2.2 n

/-- The lowest set bit of the bitmap among the indices from 2 on is bit `i`,
and `i` is below 31. -/
def lowest_free (fb i : Nat) : Prop :=
  2 ≤ i ∧ i < 31 ∧ fb.testBit i = true ∧ ∀ j < i, 2 ≤ j → fb.testBit j = false

instance (fb i : Nat) : Decidable (lowest_free fb i) := by
  unfold lowest_free; infer_instance

/-- The two creating operations. -/
inductive CallKind where
  | create
  | mkdir
  deriving DecidableEq, Repr

/-- A call of `assoofs_create` or `assoofs_mkdir`: the parent directory by its
inode number, the dentry name, the mode, and the object `kmem_cache_alloc`
hands out. -/
structure Call where
  kind : CallKind
  parent : Nat
  name : List Nat
  mode : Nat
  obj : assoofs_inode_info
  deriving DecidableEq, Repr

/-- A call on the handle of its parent.  The private record of a handle is
the copy `assoofs_get_inode_info` makes of the parent's record, as in
`assoofs_get_inode` and `assoofs_fill_super`; without such a record there is
no handle and no call. -/
def do_call (L : Layout) (st : FS) (c : Call) : Option CreateResult :=
  match assoofs_get_inode_info st c.parent with
  | none => none
  | some dir =>
    match c.kind with
    | CallKind.create => some (assoofs_create L st dir c.name c.mode c.obj)
    | CallKind.mkdir => some (assoofs_mkdir L st dir c.name c.mode c.obj)

/-- The state after a call. -/
def step (L : Layout) (st : FS) (c : Call) : FS :=
  match do_call L st c with
  | none => st
  | some r => r.fs

/-- The state after a sequence of calls. -/
def run (L : Layout) (st : FS) : List Call → FS
  | [] => st
  | c :: cs => run L (step L st c) cs

/-- The parent's handle exists, the slot the new directory record goes to
lies inside the parent's block, and no record of the parent carries the name. -/
def parent_ok (L : Layout) (st : FS) (name : List Nat) : Option assoofs_inode_info → Prop
  | none => False
  | some dir =>
    (dir.dir_children_count + 1) * L.entry_size ≤ L.ASSOOFS_DEFAULT_BLOCK_SIZE ∧
      lookup_loop L (st.blocks dir.data_block_number) name dir.dir_children_count 0 = none

instance (L : Layout) (st : FS) (name : List Nat) :
    ∀ o, Decidable (parent_ok L st name o)
  | none => isFalse (fun h => h)
  | some _ => by unfold parent_ok; infer_instance

/-- A call the code serves within its limits: fewer than 64 inodes exist, the
lowest free block is below 31, the name with its terminator fits the filename
field and is new in the parent, and the parent's block has room. -/
def call_ok (L : Layout) (st : FS) (c : Call) : Prop :=
  st.sb.inodes_count < ASSOOFS_MAX_FILESYSTEM_OBJECTS_SUPPORTED ∧
    (∃ i < 31, lowest_free st.sb.free_blocks i) ∧
    (cstr c.name).length < L.ASSOOFS_FILENAME_MAXLEN ∧
    parent_ok L st c.name (assoofs_get_inode_info st c.parent)

instance (L : Layout) (st : FS) (c : Call) : Decidable (call_ok L st c) := by
  unfold call_ok; infer_instance

/-- Every call of the sequence is served within the limits, in the state it
is made in. -/
def admissible (L : Layout) : FS → List Call → Prop
  | _, [] => True
  | st, c :: cs => call_ok L st c ∧ admissible L (step L st c) cs

/-- Deciding `admissible`, call by call. -/
def admissible_dec (L : Layout) : ∀ (st : FS) (cs : List Call), Decidable (admissible L st cs)
  | _, [] => isTrue trivial
  | st, c :: cs =>
    match (inferInstance : Decidable (call_ok L st c)), admissible_dec L (step L st c) cs with
    | isTrue h1, isTrue h2 => isTrue ⟨h1, h2⟩
    | isFalse h1, _ => isFalse (fun h => h1 h.1)
    | _, isFalse h2 => isFalse (fun h => h2 h.2)

instance (L : Layout) (st : FS) (cs : List Call) : Decidable (admissible L st cs) :=
  admissible_dec L st cs

/-- Modelled from the spec: the formatting tool is not among the sources.  A
freshly formatted filesystem holds one inode, the root directory, numbered 1,
empty, whose data block is marked used in the bitmap. -/
def Fresh (st : FS) : Prop :=
  st.sb.inodes_count = 1 ∧ (st.inodestore 0).inode_no = ASSOOFS_ROOTDIR_INODE_NUMBER ∧
    (st.inodestore 0).dir_children_count = 0 ∧
    st.sb.free_blocks.testBit (st.inodestore 0).data_block_number = false

/-- The invariant of the inode store: the count is within the ceiling, slot
`i` holds inode `i + 1`, the data blocks of the records are marked used, and
no two records share a block. -/
def Inv (st : FS) : Prop :=
  st.sb.inodes_count ≤ ASSOOFS_MAX_FILESYSTEM_OBJECTS_SUPPORTED ∧
    (∀ i < st.sb.inodes_count, (st.inodestore i).inode_no = i + 1) ∧
    (∀ i < st.sb.inodes_count,
      st.sb.free_blocks.testBit (st.inodestore i).data_block_number = false) ∧
    (∀ i < st.sb.inodes_count, ∀ j < st.sb.inodes_count,
      (st.inodestore i).data_block_number = (st.inodestore j).data_block_number → i = j)

/-- The directory numbered `p` lists `name`, and its first record of that name
carries the inode number `ino`, a number in use; the name fits the filename
field. -/
def has_entry (L : Layout) (st : FS) (p : Nat) (name : List Nat) (ino : Nat) : Prop :=
  1 ≤ p ∧ p ≤ st.sb.inodes_count ∧ (cstr name).length < L.ASSOOFS_FILENAME_MAXLEN ∧
    1 ≤ ino ∧ ino ≤ st.sb.inodes_count ∧
    lookup_loop L (st.blocks (st.inodestore (p - 1)).data_block_number) name
      (st.inodestore (p - 1)).dir_children_count 0 = some ino

/-- The outcome of `assoofs_create` and `assoofs_mkdir` on parent `p` when the
allocator hands out block `i` (see `finish_create_low`): the new record
`info`, with block `i`, in slot `inodes_count` of the store; the parent's record
with one child more; the new directory record in the parent's block; bit `i`
cleared and the count incremented in the superblock. -/
def create_outcome (L : Layout) (st : FS) (p i : Nat) (info : assoofs_inode_info)
    (name : List Nat) : CreateResult :=
  { ret := 0
    fs :=
      { sb := { st.sb with
          free_blocks := st.sb.free_blocks &&& (2 ^ 64 - (2 ^ i + 1))
          inodes_count := st.sb.inodes_count + 1 }
        inodestore := set_at
          (set_at st.inodestore st.sb.inodes_count { info with data_block_number := i })
          (p - 1)
          { st.inodestore (p - 1) with
            dir_children_count := (st.inodestore (p - 1)).dir_children_count + 1 }
        blocks := set_at st.blocks (st.inodestore (p - 1)).data_block_number
          (strcpy (store64 (st.blocks (st.inodestore (p - 1)).data_block_number)
            ((st.inodestore (p - 1)).dir_children_count * L.entry_size + L.inode_no_off)
            (st.sb.inodes_count + 1))
            ((st.inodestore (p - 1)).dir_children_count * L.entry_size) name) }
    dir := { st.inodestore (p - 1) with
      dir_children_count := (st.inodestore (p - 1)).dir_children_count + 1 }
    inode := some { info with data_block_number := i } }

/-- A block of zero bytes. -/
def zero_block : Block := fun _ => 0

/-- A superblock record with the given inode count and bitmap. -/
def sample_sb (count fb : Nat) : assoofs_super_block_info :=
  { version := 1, magic := stdLayout.ASSOOFS_MAGIC
    block_size := stdLayout.ASSOOFS_DEFAULT_BLOCK_SIZE, inodes_count := count, free_blocks := fb }

/-- A record of the root directory, empty, in block 2. -/
def sample_root : assoofs_inode_info :=
  { mode := S_IFDIR, inode_no := 1, data_block_number := 2, file_size := 0
    dir_children_count := 0 }

/-- A record all of whose fields are zero. -/
def zero_info : assoofs_inode_info :=
  { mode := 0, inode_no := 0, data_block_number := 0, file_size := 0, dir_children_count := 0 }

/-- A call of `assoofs_create` for a file `c` in the root directory. -/
def sample_create : Call :=
  { kind := CallKind.create, parent := 1, name := [99], mode := S_IFREG ||| 420, obj := zero_info }

/-- A call of `assoofs_mkdir` for a directory `a` in the root directory. -/
def sample_mkdir : Call :=
  { kind := CallKind.mkdir, parent := 1, name := [97], mode := 493, obj := zero_info }

/-- A call of `assoofs_create` for a file `b` in the directory numbered 2. -/
def sample_nested : Call :=
  { kind := CallKind.create, parent := 2, name := [98], mode := S_IFREG ||| 420, obj := zero_info }

/-- A device with the root directory in slot 0 of the inode store, zeroes
elsewhere, and the given inode count and bitmap. -/
def sample_fs (count fb : Nat) : FS :=
  { sb := sample_sb count fb
    inodestore := fun i => if i = 0 then sample_root else zero_info
    blocks := fun _ => zero_block }

/-! ## The superblock invariant -/

/-- The superblock invariant between the record `a` before an operation and
the record `b` after it: `magic`, `version` and `block_size` are the same,
`inodes_count` has not decreased, and each of the bits 0 and 1 of
`free_blocks` is 0 afterwards if it was 0 before. -/
def sb_preserved (a b : assoofs_super_block_info) : Prop :=
  b.magic = a.magic ∧ b.version = a.version ∧ b.block_size = a.block_size ∧
    a.inodes_count ≤ b.inodes_count ∧
    (a.free_blocks.testBit 0 = false → b.free_blocks.testBit 0 = false) ∧
    (a.free_blocks.testBit 1 = false → b.free_blocks.testBit 1 = false)

/-- A regular file of 3 bytes in block 3, inode 2. -/
def sample_file : assoofs_inode_info :=
  { mode := S_IFREG ||| 420, inode_no := 2, data_block_number := 3, file_size := 3
    dir_children_count := 0 }

/-- The sample device with two inodes, the second being `sample_file` in slot
1 of the store, whose block 3 holds the bytes 104, 105, 33 and zeroes after
them. -/
def sample_fs_file : FS :=
  { sb := sample_sb 2 (2 ^ 64 - 16)
    inodestore := fun i => if i = 0 then sample_root else if i = 1 then sample_file else zero_info
    blocks := fun b => if b = 3 then write_bytes zero_block 0 [104, 105, 33] else zero_block }

/-- The sample device whose root block holds a record named `a` for inode 2 in
slot 0 while the root's `dir_children_count` is 0. -/
def sample_fs_stale : FS :=
  { sb := sample_sb 2 (2 ^ 64 - 16)
    inodestore := fun i => if i = 0 then sample_root else if i = 1 then sample_file else zero_info
    blocks := fun b =>
      if b = 2 then strcpy (store64 zero_block stdLayout.inode_no_off 2) 0 [97] else zero_block }

/-- A call of `assoofs_create` for a file `d` in the root directory. -/
def sample_second : Call := { sample_create with name := [100] }

/-- A call of `assoofs_create` for a file `e` in the root directory. -/
def sample_third : Call := { sample_create with name := [101] }

/-- Thirty calls on a formatted device: a directory `a` in the root, fourteen
files in the root, fifteen files in the directory `a`. -/
def sample_thirty : List Call :=
  sample_mkdir :: ((List.range 14).map (fun i => { sample_create with name := [100 + i] }) ++
    (List.range 15).map (fun i => { sample_nested with name := [100 + i] }))
/-- The invariant of the inode records: the records in slots
`[0, inodes_count)` carry pairwise distinct numbers, and the data block of
each is an index of the 64-bit bitmap whose bit is 0. -/
def record_invariant (st : FS) : Prop :=
  (∀ i < st.sb.inodes_count, ∀ j < st.sb.inodes_count,
      (st.inodestore i).inode_no = (st.inodestore j).inode_no → i = j) ∧
    ∀ i < st.sb.inodes_count,
      (st.inodestore i).data_block_number < 64 ∧
        st.sb.free_blocks.testBit (st.inodestore i).data_block_number = false

/-! ## The state after the reading operations -/

/-- The mounted filesystem after `assoofs_read`: the function stores to the
user buffer (`copy_to_user`), to `*ppos` and to its local `nbytes`, and to
nothing of the filesystem. -/
def assoofs_read_fs (st : FS) (_inode_info : assoofs_inode_info) (_len _ppos : Nat) : FS := st

/-- The mounted filesystem after `assoofs_iterate`: the function stores to the
context (`dir_emit`, `ctx->pos`) and to its locals, and to nothing of the
filesystem. -/
def assoofs_iterate_fs (_L : Layout) (st : FS) (_inode_info : assoofs_inode_info)
    (_ctx : dir_context) : FS := st

/-- The mounted filesystem after `assoofs_lookup`: the function and
`assoofs_get_inode` store to the new in-memory inode, to the copy of the record
`assoofs_get_inode_info` allocates and to the dentry (`d_add`), and to nothing
of the filesystem. -/
def assoofs_lookup_fs (_L : Layout) (st : FS) (_parent_info : assoofs_inode_info)
    (_name : List Nat) : FS := st

/-! # Theorems -/

/-! ## The allocator -/

theorem to_u64_int_shl1 (i : Nat) (h : i < 31) : to_u64 (int_shl1 i) = 2 ^ i := by
  interval_cases i <;> rfl

theorem to_u64_int_not_shl1 (i : Nat) (h : i < 31) :
    to_u64 (int_not (int_shl1 i)) = 2 ^ 64 - (2 ^ i + 1) := by
  interval_cases i <;> rfl

theorem land_two_pow_eq_zero (fb i : Nat) : fb &&& 2 ^ i = 0 ↔ fb.testBit i = false := by
  rw [Nat.and_two_pow]
  cases h : fb.testBit i <;> simp

theorem freeblock_loop_found (fb : Nat) :
    ∀ (fuel s i : Nat), s ≤ i → i < 64 → i < s + fuel →
      (∀ j, s ≤ j → j < i → fb &&& to_u64 (int_shl1 j) = 0) →
      fb &&& to_u64 (int_shl1 i) ≠ 0 → freeblock_loop fb fuel s = i := by
  intro fuel
  induction fuel with
  | zero => intro s i h1 _ h3; omega
  | succ n ih =>
    intro s i h1 h2 h3 h4 h5
    unfold freeblock_loop
    have hs : s < ASSOOFS_MAX_FILESYSTEM_OBJECTS_SUPPORTED := by
      unfold ASSOOFS_MAX_FILESYSTEM_OBJECTS_SUPPORTED; omega
    rw [if_pos hs]
    by_cases hsi : s = i
    · subst hsi; rw [if_pos h5]
    · have hz := h4 s (Nat.le_refl s) (by omega)
      rw [if_neg (by simp [hz])]
      exact ih (s + 1) i (by omega) h2 (by omega) (fun j hj1 hj2 => h4 j (by omega) hj2) h5

/-- When the lowest free block is below 31 the allocator returns it and clears
its bit. -/
theorem get_a_freeblock_low (sb : assoofs_super_block_info) (i : Nat)
    (h : lowest_free sb.free_blocks i) :
    assoofs_sb_get_a_freeblock sb =
      (0, i, { sb with free_blocks := sb.free_blocks &&& (2 ^ 64 - (2 ^ i + 1)) }) := by
  obtain ⟨h2, h31, hset, hlow⟩ := h
  have hloop : freeblock_loop sb.free_blocks ASSOOFS_MAX_FILESYSTEM_OBJECTS_SUPPORTED 2 = i := by
    apply freeblock_loop_found _ _ _ _ h2 (by omega)
      (by unfold ASSOOFS_MAX_FILESYSTEM_OBJECTS_SUPPORTED; omega)
    · intro j hj1 hj2
      rw [to_u64_int_shl1 j (by omega), land_two_pow_eq_zero]
      exact hlow j hj2 hj1
    · rw [to_u64_int_shl1 i h31]
      intro hz
      rw [land_two_pow_eq_zero] at hz
      rw [hz] at hset
      exact Bool.noConfusion hset
  unfold assoofs_sb_get_a_freeblock
  simp only [hloop, to_u64_int_not_shl1 i h31]

theorem testBit_clear (fb i j : Nat) (hi : i < 64) :
    (fb &&& (2 ^ 64 - (2 ^ i + 1))).testBit j =
      (fb.testBit j && (decide (j < 64) && !decide (i = j))) := by
  rw [Nat.testBit_and, Nat.testBit_two_pow_sub_succ (Nat.pow_lt_pow_right (by omega) hi),
    Nat.testBit_two_pow]

/-- C2, the code at the failing input: on a bitmap without free block two
successive calls of the allocator both hand out block 64. -/
theorem alloc_seq_repeats_block : alloc_seq (sample_sb 1 0) 2 = [64, 64] := by
  decide

/-- From the bitmap of a formatted device (blocks 3 to 63 free) the allocator
hands out 3, 4, ..., 31 and then, for the thirtieth and the thirty-first call
alike, block 64. -/
theorem alloc_seq_formatted :
    alloc_seq (sample_sb 1 (2 ^ 64 - 8)) 31 = List.range' 3 29 ++ [64, 64] := by
  decide

/-- C3, the code at the failing input: the allocator returns 0 for every
superblock, and on a bitmap without any set bit it returns 0 with
`*block = 64`, leaving the bitmap as it was. -/
theorem get_a_freeblock_reports_success :
    (∀ sb : assoofs_super_block_info, (assoofs_sb_get_a_freeblock sb).1 = 0) ∧
      assoofs_sb_get_a_freeblock (sample_sb 1 0) = (0, 64, sample_sb 1 0) :=
  ⟨fun _ => rfl, by decide⟩

/-- C4, the code at the failing inputs: with blocks 31 to 63 free the
allocator returns 31 and clears all of the bits 31 to 63; with only blocks 40
and 41 free it returns 31 and clears both bits. -/
theorem get_a_freeblock_high_bits :
    assoofs_sb_get_a_freeblock (sample_sb 1 (2 ^ 64 - 2 ^ 31)) = (0, 31, sample_sb 1 0) ∧
      assoofs_sb_get_a_freeblock (sample_sb 1 (2 ^ 40 + 2 ^ 41)) = (0, 31, sample_sb 1 0) := by
  decide

/-! ## Read and write -/

/-- C5, the code at the failing input: after writing the byte 65 at offset 1
of an empty file, a read of one byte at offset 1 returns one byte, and it is
byte 0 of the block, not the byte written. -/
theorem write_then_read_at_offset :
    (let inode_info : assoofs_inode_info :=
        { mode := S_IFREG, inode_no := 2, data_block_number := 3, file_size := 0
          dir_children_count := 0 }
      let w := assoofs_write (sample_fs 2 0) inode_info [65] 1
      assoofs_read w.fs w.inode_info 1 1) = { ret := 1, buf := [0], ppos := 2 } := by
  decide

/-! ## Failure of create and mkdir -/

/-- At the object-count ceiling `assoofs_create` and `assoofs_mkdir` return
`-EPERM` and leave the state and the parent's record as they were. -/
theorem create_at_ceiling (L : Layout) (st : FS) (dir : assoofs_inode_info) (name : List Nat)
    (mode : Nat) (obj : assoofs_inode_info)
    (h : st.sb.inodes_count ≥ ASSOOFS_MAX_FILESYSTEM_OBJECTS_SUPPORTED) :
    assoofs_create L st dir name mode obj = { ret := -EPERM, fs := st, dir := dir, inode := none } ∧
      assoofs_mkdir L st dir name mode obj =
        { ret := -EPERM, fs := st, dir := dir, inode := none } := by
  simp [assoofs_create, assoofs_mkdir, h]

/-- C6, the code at the failing input: with one inode and no free block,
`assoofs_create` and `assoofs_mkdir` return 0, raise `inodes_count` to 2,
store a record with data block 64 in slot 1 of the inode store and raise the
parent's `dir_children_count` to 1. -/
theorem create_without_free_block :
    (let r := assoofs_create stdLayout (sample_fs 1 0) sample_root [97] S_IFREG zero_info;
      (r.ret, r.fs.sb.inodes_count, (r.fs.inodestore 1).data_block_number,
        (r.fs.inodestore 0).dir_children_count)) = (0, 2, 64, 1) ∧
    (let r := assoofs_mkdir stdLayout (sample_fs 1 0) sample_root [97] 493 zero_info;
      (r.ret, r.fs.sb.inodes_count, (r.fs.inodestore 1).data_block_number,
        (r.fs.inodestore 0).dir_children_count)) = (0, 2, 64, 1) := by
  decide

/-! ## Mount -/

/-- C7: `assoofs_fill_super` returns 0 exactly when the stored magic and
block size equal the constants; on a wrong magic it logs the magic error, on
a right magic and a wrong block size the block-size error, and in both cases
it returns -1 with `s_fs_info`, `s_op` and the root inode not set up. -/
theorem fill_super_checks (L : Layout) (dev : FS) :
    ((assoofs_fill_super L dev).ret = 0 ↔
      dev.sb.magic = L.ASSOOFS_MAGIC ∧ dev.sb.block_size = L.ASSOOFS_DEFAULT_BLOCK_SIZE) ∧
    (dev.sb.magic ≠ L.ASSOOFS_MAGIC →
      assoofs_fill_super L dev =
        { ret := -1, err := some FillSuperError.magic_mismatch, s_magic := none
          s_maxbytes := none, s_op := false, s_fs_info := none, s_root := none }) ∧
    (dev.sb.magic = L.ASSOOFS_MAGIC → dev.sb.block_size ≠ L.ASSOOFS_DEFAULT_BLOCK_SIZE →
      assoofs_fill_super L dev =
        { ret := -1, err := some FillSuperError.block_size_mismatch, s_magic := none
          s_maxbytes := none, s_op := false, s_fs_info := none, s_root := none }) ∧
    (dev.sb.magic = L.ASSOOFS_MAGIC → dev.sb.block_size = L.ASSOOFS_DEFAULT_BLOCK_SIZE →
      assoofs_fill_super L dev =
        { ret := 0, err := none, s_magic := some L.ASSOOFS_MAGIC
          s_maxbytes := some L.ASSOOFS_DEFAULT_BLOCK_SIZE, s_op := true
          s_fs_info := some dev.sb
          s_root := some (assoofs_get_inode_info dev ASSOOFS_ROOTDIR_INODE_NUMBER) }) := by
  unfold assoofs_fill_super
  by_cases h1 : dev.sb.magic = L.ASSOOFS_MAGIC <;>
    by_cases h2 : dev.sb.block_size = L.ASSOOFS_DEFAULT_BLOCK_SIZE <;> simp [h1, h2]

/-! ## Update of the inode store -/

/-- C8, the code at the failing input: the store has one valid slot (inode 1)
and slot 1, outside the valid range, still holds an old record numbered 2.
Saving a record numbered 2 returns 0 and overwrites slot 1. -/
theorem save_inode_info_past_count :
    (let stale : assoofs_inode_info :=
        { mode := S_IFREG, inode_no := 2, data_block_number := 3, file_size := 5
          dir_children_count := 0 }
      let dev := sample_fs 1 (2 ^ 64 - 8)
      let st : FS := { dev with inodestore := set_at dev.inodestore 1 stale }
      let r := assoofs_save_inode_info st { stale with file_size := 9 };
      (assoofs_get_inode_info st 2, r.1, (r.2.inodestore 1).file_size)) = (none, 0, 9) := by
  decide

/-! ## Memory lemmas -/

theorem write_bytes_outside (b : Block) (dst : Nat) (src : List Nat) (a : Nat)
    (h : a < dst ∨ dst + src.length ≤ a) : write_bytes b dst src a = b a := by
  unfold write_bytes
  rw [if_neg (by omega)]

theorem write_bytes_inside (b : Block) (dst : Nat) (src : List Nat) (j : Nat)
    (h : j < src.length) : write_bytes b dst src (dst + j) = src.getD j 0 := by
  unfold write_bytes
  rw [if_pos (by omega)]
  congr 1
  omega

theorem store64_outside (b : Block) (off v a : Nat) (h : a < off ∨ off + 8 ≤ a) :
    store64 b off v a = b a := by
  unfold store64
  rw [if_neg (by omega)]

theorem load64_congr (b b' : Block) (off : Nat) (h : ∀ j < 8, b (off + j) = b' (off + j)) :
    load64 b off = load64 b' off := by
  unfold load64
  have h0 := h 0 (by omega)
  rw [Nat.add_zero] at h0
  rw [h0, h 1 (by omega), h 2 (by omega), h 3 (by omega), h 4 (by omega), h 5 (by omega),
    h 6 (by omega), h 7 (by omega)]

theorem cstr_nil : cstr [] = [] := rfl

theorem cstr_cons_zero (cs : List Nat) : cstr (0 :: cs) = [] := by
  simp [cstr]

theorem cstr_cons_ne (c : Nat) (cs : List Nat) (h : c ≠ 0) : cstr (c :: cs) = c :: cstr cs := by
  simp [cstr, List.takeWhile_cons, h]

/-- The comparison succeeds exactly when the block holds the characters of
the name followed by a NUL. -/
theorem strcmp_eq_iff (b : Block) (s : List Nat) : ∀ off,
    strcmp_eq b off s = true ↔
      (∀ j < (cstr s).length, b (off + j) = (cstr s).getD j 0) ∧
        b (off + (cstr s).length) = 0 := by
  induction s with
  | nil => intro off; simp [strcmp_eq, cstr]
  | cons c cs ih =>
    intro off
    by_cases hc : c = 0
    · subst hc
      simp [strcmp_eq, cstr_cons_zero]
    · rw [cstr_cons_ne _ _ hc]
      unfold strcmp_eq
      rw [if_neg hc, Bool.and_eq_true, ih (off + 1)]
      simp only [beq_iff_eq, List.length_cons]
      constructor
      · rintro ⟨h0, h1, h2⟩
        refine ⟨?_, ?_⟩
        · intro j hj
          cases j with
          | zero => simpa using h0
          | succ k =>
            have := h1 k (by omega)
            rw [show off + (k + 1) = off + 1 + k by omega, this]
            simp
        · rw [show off + ((cstr cs).length + 1) = off + 1 + (cstr cs).length by omega]
          exact h2
      · rintro ⟨h1, h2⟩
        refine ⟨?_, ?_, ?_⟩
        · simpa using h1 0 (by omega)
        · intro j hj
          have := h1 (j + 1) (by omega)
          rw [show off + 1 + j = off + (j + 1) by omega, this]
          simp
        · rw [show off + 1 + (cstr cs).length = off + ((cstr cs).length + 1) by omega]
          exact h2

theorem strcmp_eq_congr (b b' : Block) (s : List Nat) (off : Nat)
    (h : ∀ j ≤ (cstr s).length, b (off + j) = b' (off + j)) :
    strcmp_eq b off s = strcmp_eq b' off s := by
  rw [Bool.eq_iff_iff, strcmp_eq_iff, strcmp_eq_iff]
  constructor
  · rintro ⟨h1, h2⟩
    exact ⟨fun j hj => by rw [← h j (by omega)]; exact h1 j hj, by rw [← h _ (Nat.le_refl _)]; exact h2⟩
  · rintro ⟨h1, h2⟩
    exact ⟨fun j hj => by rw [h j (by omega)]; exact h1 j hj, by rw [h _ (Nat.le_refl _)]; exact h2⟩

theorem strcpy_chars (b : Block) (off : Nat) (s : List Nat) :
    (∀ j < (cstr s).length, strcpy b off s (off + j) = (cstr s).getD j 0) ∧
      strcpy b off s (off + (cstr s).length) = 0 := by
  unfold strcpy
  constructor
  · intro j hj
    rw [write_bytes_inside _ _ _ _ (by simp; omega)]
    simp [List.getD_eq_getElem?_getD, List.getElem?_append_left hj]
  · rw [write_bytes_inside _ _ _ _ (by simp)]
    simp [List.getD_eq_getElem?_getD]

theorem strcpy_outside (b : Block) (off : Nat) (s : List Nat) (a : Nat)
    (h : a < off ∨ off + (cstr s).length + 1 ≤ a) : strcpy b off s a = b a := by
  unfold strcpy
  apply write_bytes_outside
  simp only [List.length_append, List.length_singleton]
  omega

theorem save_inode_info_frame (st : FS) (r : assoofs_inode_info) :
    (assoofs_save_inode_info st r).2.blocks = st.blocks ∧
      (assoofs_save_inode_info st r).2.sb = st.sb := by
  unfold assoofs_save_inode_info
  cases assoofs_search_inode_info st r <;> simp

theorem append_dir_entry_blocks (L : Layout) (st : FS) (dir inode_info : assoofs_inode_info)
    (name : List Nat) :
    (append_dir_entry L st dir inode_info name).fs.blocks =
      set_at st.blocks dir.data_block_number
        (strcpy (store64 (st.blocks dir.data_block_number)
          (dir.dir_children_count * L.entry_size + L.inode_no_off) inode_info.inode_no)
          (dir.dir_children_count * L.entry_size) name) := by
  unfold append_dir_entry
  simp only [(save_inode_info_frame _ _).1]

theorem finish_create_ret (L : Layout) (st : FS) (dir inode_info : assoofs_inode_info)
    (name : List Nat) : (finish_create L st dir inode_info name).ret = 0 := by
  unfold finish_create
  have h : (assoofs_sb_get_a_freeblock st.sb).1 = 0 := rfl
  simp only [h, ne_eq, not_true_eq_false, if_false]
  rfl

/-- C9, the code at the failing input: `assoofs_create` given a name of 256
characters, one more than the filename field holds, returns 0; the characters
fill the filename field of record 0 (byte 254 is the character 97), and the
terminator lands on byte 256, the first byte of the record's `inode_no` field,
which then reads 0 instead of the new inode number 2. -/
theorem create_long_name_accepted :
    (let r := assoofs_create stdLayout (sample_fs 1 (2 ^ 64 - 8)) sample_root
        (List.replicate 256 97) S_IFREG zero_info;
      (r.ret, r.fs.blocks 2 254, r.fs.blocks 2 256, load64 (r.fs.blocks 2) 256,
        r.inode.map (fun i => i.inode_no))) = (0, 97, 0, 0, some 2) := by
  set_option maxRecDepth 100000 in decide

/-- For a name that fits the filename field, in a slot that lies inside the
parent's block, the append step writes the characters of the name and a
terminating NUL at the start of the record's filename field and changes no
byte outside the filename field and the `inode_no` field of that record, in
that block or in any other. -/
theorem append_stays_in_record (L : Layout) (_hL : L.WF) (st : FS)
    (dir inode_info : assoofs_inode_info) (name : List Nat)
    (_hroom : (dir.dir_children_count + 1) * L.entry_size ≤ L.ASSOOFS_DEFAULT_BLOCK_SIZE)
    (hfit : (cstr name).length < L.ASSOOFS_FILENAME_MAXLEN) :
    (∀ j < (cstr name).length,
      (append_dir_entry L st dir inode_info name).fs.blocks dir.data_block_number
        (dir.dir_children_count * L.entry_size + j) = (cstr name).getD j 0) ∧
    (append_dir_entry L st dir inode_info name).fs.blocks dir.data_block_number
      (dir.dir_children_count * L.entry_size + (cstr name).length) = 0 ∧
    (∀ blk a, (blk ≠ dir.data_block_number ∨
        ((a < dir.dir_children_count * L.entry_size ∨
            dir.dir_children_count * L.entry_size + L.ASSOOFS_FILENAME_MAXLEN ≤ a) ∧
          (a < dir.dir_children_count * L.entry_size + L.inode_no_off ∨
            dir.dir_children_count * L.entry_size + L.inode_no_off + 8 ≤ a))) →
      (append_dir_entry L st dir inode_info name).fs.blocks blk a = st.blocks blk a) := by
  refine ⟨?_, ?_, ?_⟩
  · intro j hj
    rw [append_dir_entry_blocks]
    simp only [set_at, if_true]
    exact (strcpy_chars _ _ _).1 j hj
  · rw [append_dir_entry_blocks]
    simp only [set_at, if_true]
    exact (strcpy_chars _ _ _).2
  · intro blk a h
    rw [append_dir_entry_blocks]
    unfold set_at
    by_cases hb : blk = dir.data_block_number
    · rw [if_pos hb, hb]
      rcases h with h | ⟨h1, h2⟩
      · exact absurd hb h
      · rw [strcpy_outside _ _ _ _ (by omega), store64_outside _ _ _ _ h2]
    · rw [if_neg hb]

/-! ## Directory records -/

theorem read_bytes_eq (b : Block) (off : Nat) (l : List Nat)
    (h : ∀ j < l.length, b (off + j) = l.getD j 0) : read_bytes b off l.length = l := by
  unfold read_bytes
  apply List.ext_getElem
  · simp
  · intro j h1 h2
    simp only [List.getElem_map, List.getElem_range]
    rw [h j h2, List.getD_eq_getElem?_getD, List.getElem?_eq_getElem h2]
    rfl

theorem get_inode_info_loop_found (store : Nat → assoofs_inode_info) (ino : Nat) :
    ∀ (n i t : Nat), i ≤ t → t < i + n → (∀ j, i ≤ j → j < t → (store j).inode_no ≠ ino) →
      (store t).inode_no = ino → get_inode_info_loop store ino n i = some (store t) := by
  intro n
  induction n with
  | zero => intro i t h1 h2; omega
  | succ n ih =>
    intro i t h1 h2 h3 h4
    unfold get_inode_info_loop
    by_cases hit : i = t
    · subst hit; rw [if_pos h4]
    · rw [if_neg (h3 i (Nat.le_refl i) (by omega))]
      exact ih (i + 1) t (by omega) (by omega) (fun j hj1 hj2 => h3 j (by omega) hj2) h4

theorem get_inode_info_loop_none (store : Nat → assoofs_inode_info) (ino : Nat) :
    ∀ (n i : Nat), (∀ j, i ≤ j → j < i + n → (store j).inode_no ≠ ino) →
      get_inode_info_loop store ino n i = none := by
  intro n
  induction n with
  | zero => intro i _; rfl
  | succ n ih =>
    intro i h
    unfold get_inode_info_loop
    rw [if_neg (h i (Nat.le_refl i) (by omega))]
    exact ih (i + 1) (fun j hj1 hj2 => h j (by omega) (by omega))

/-- Under the invariant inode `p` is found exactly when `1 ≤ p ≤ inodes_count`,
in slot `p - 1`. -/
theorem get_inode_info_inv (st : FS) (h : Inv st) (p : Nat) :
    assoofs_get_inode_info st p =
      if 1 ≤ p ∧ p ≤ st.sb.inodes_count then some (st.inodestore (p - 1)) else none := by
  obtain ⟨_, h1, _, _⟩ := h
  unfold assoofs_get_inode_info
  split
  · next hp =>
    apply get_inode_info_loop_found _ _ _ _ _ (Nat.zero_le _) (by omega)
    · intro j _ hj
      rw [h1 j (by omega)]; omega
    · rw [h1 (p - 1) (by omega)]; omega
  · next hp =>
    apply get_inode_info_loop_none
    intro j _ hj
    rw [h1 j (by omega)]; omega

theorem search_loop_found (store : Nat → assoofs_inode_info) (ino n : Nat) :
    ∀ (fuel c t : Nat), c ≤ t → t < c + fuel → t < n →
      (∀ j, c ≤ j → j < t → (store j).inode_no ≠ ino) → (store t).inode_no = ino →
      search_loop store ino n fuel c = t := by
  intro fuel
  induction fuel with
  | zero => intro c t h1 h2; omega
  | succ f ih =>
    intro c t h1 h2 h3 h4 h5
    unfold search_loop
    by_cases hct : c = t
    · subst hct
      rw [if_neg (by simp [h5])]
    · rw [if_pos ⟨h4 c (Nat.le_refl c) (by omega), by omega⟩]
      exact ih (c + 1) t (by omega) (by omega) h3 (fun j hj1 hj2 => h4 j (by omega) hj2) h5

/-- When slot `i` holds inode `i + 1` for all valid slots, saving a record
whose number is in use overwrites its slot and nothing else. -/
theorem save_inode_info_inv (st : FS)
    (h1 : ∀ i < st.sb.inodes_count, (st.inodestore i).inode_no = i + 1)
    (r : assoofs_inode_info) (hr1 : 1 ≤ r.inode_no) (hr2 : r.inode_no ≤ st.sb.inodes_count) :
    assoofs_save_inode_info st r =
      (0, { st with inodestore := set_at st.inodestore (r.inode_no - 1) r }) := by
  have hs : search_loop st.inodestore r.inode_no st.sb.inodes_count st.sb.inodes_count 0 =
      r.inode_no - 1 := by
    apply search_loop_found _ _ _ _ _ _ (Nat.zero_le _) (by omega) (by omega)
    · intro j _ hj
      rw [h1 j (by omega)]; omega
    · rw [h1 _ (by omega)]; omega
  have hf : (st.inodestore (r.inode_no - 1)).inode_no = r.inode_no := by
    rw [h1 _ (by omega)]; omega
  unfold assoofs_save_inode_info assoofs_search_inode_info
  simp only [hs, hf, if_true]

/-- What `finish_create` does when the lowest free block is below 31 and the
parent is inode `p` of the store. -/
theorem finish_create_low (L : Layout) (st : FS) (hI : Inv st) (i : Nat)
    (hfree : lowest_free st.sb.free_blocks i) (p : Nat) (hp1 : 1 ≤ p)
    (hp2 : p ≤ st.sb.inodes_count)
    (hk : (st.inodestore (p - 1)).dir_children_count + 1 < U64)
    (hn : st.sb.inodes_count < ASSOOFS_MAX_FILESYSTEM_OBJECTS_SUPPORTED)
    (info : assoofs_inode_info) (hinfo : info.inode_no = st.sb.inodes_count + 1)
    (name : List Nat) :
    finish_create L st (st.inodestore (p - 1)) info name = create_outcome L st p i info name := by
  obtain ⟨_, h1, _, _⟩ := hI
  unfold ASSOOFS_MAX_FILESYSTEM_OBJECTS_SUPPORTED at hn
  have hmodn : (st.sb.inodes_count + 1) % U64 = st.sb.inodes_count + 1 :=
    Nat.mod_eq_of_lt (by unfold U64; omega)
  have hmodk : ((st.inodestore (p - 1)).dir_children_count + 1) % U64 =
      (st.inodestore (p - 1)).dir_children_count + 1 := Nat.mod_eq_of_lt hk
  have hpno : (st.inodestore (p - 1)).inode_no = p := by
    rw [h1 _ (by omega)]; omega
  unfold finish_create create_outcome
  rw [get_a_freeblock_low st.sb i hfree]
  simp only [ne_eq, not_true_eq_false, if_false]
  unfold append_dir_entry assoofs_add_inode_info assoofs_save_sb_info
  simp only [hmodn, hmodk, hinfo]
  rw [save_inode_info_inv]
  · simp only [hpno]
  · intro j hj
    simp only at hj
    simp only [set_at]
    by_cases hjn : j = st.sb.inodes_count
    · rw [if_pos hjn, hjn]
    · rw [if_neg hjn]; exact h1 j (by omega)
  · simp only [hpno]; exact hp1
  · simp only [hpno]; omega

/-! ## The scan of a directory -/

theorem lookup_loop_congr (L : Layout) (hL : L.WF) (b b' : Block) (name : List Nat)
    (hfit : (cstr name).length < L.ASSOOFS_FILENAME_MAXLEN) :
    ∀ (n i : Nat), (∀ a, i * L.entry_size ≤ a → a < (i + n) * L.entry_size → b a = b' a) →
      lookup_loop L b name n i = lookup_loop L b' name n i := by
  obtain ⟨_, h2, h3, _⟩ := hL
  intro n
  induction n with
  | zero => intro i _; rfl
  | succ n ih =>
    intro i h
    have e1 : (i + (n + 1)) * L.entry_size = i * L.entry_size + n * L.entry_size + L.entry_size := by
      ring
    have e2 : (i + 1 + n) * L.entry_size = i * L.entry_size + n * L.entry_size + L.entry_size := by
      ring
    have e3 : (i + 1) * L.entry_size = i * L.entry_size + L.entry_size := by ring
    unfold lookup_loop
    rw [strcmp_eq_congr b b' name _ (fun j hj => h _ (by omega) (by omega)),
      load64_congr b b' _ (fun j hj => h _ (by omega) (by omega)),
      ih (i + 1) (fun a ha1 ha2 => h a (by omega) (by omega))]

theorem lookup_loop_last (L : Layout) (b : Block) (name : List Nat) : ∀ (n i : Nat),
    lookup_loop L b name (n + 1) i =
      match lookup_loop L b name n i with
      | some x => some x
      | none =>
        if strcmp_eq b ((i + n) * L.entry_size) name then
          some (load64 b ((i + n) * L.entry_size + L.inode_no_off))
        else none := by
  intro n
  induction n with
  | zero => intro i; simp [lookup_loop]
  | succ n ih =>
    intro i
    rw [lookup_loop]
    conv => rhs; rw [lookup_loop]
    by_cases hs : strcmp_eq b (i * L.entry_size) name = true
    · simp only [hs, if_true]
    · simp only [hs, if_false]
      rw [ih (i + 1), show i + 1 + n = i + (n + 1) by omega]
      rfl

theorem through_int_small (v : Nat) (h : v < 2147483648) : through_int v = v := by
  unfold through_int
  have : v % 4294967296 = v := Nat.mod_eq_of_lt (by omega)
  rw [this, if_pos h]

theorem create_outcome_store (L : Layout) (st : FS) (p i : Nat) (info : assoofs_inode_info)
    (name : List Nat) (hp1 : 1 ≤ p) (hp2 : p ≤ st.sb.inodes_count) (j : Nat) :
    ((create_outcome L st p i info name).fs.inodestore j).data_block_number =
        (if j = st.sb.inodes_count then i else (st.inodestore j).data_block_number) ∧
      ((create_outcome L st p i info name).fs.inodestore j).inode_no =
        (if j = st.sb.inodes_count then info.inode_no else (st.inodestore j).inode_no) ∧
      ((create_outcome L st p i info name).fs.inodestore j).mode =
        (if j = st.sb.inodes_count then info.mode else (st.inodestore j).mode) ∧
      ((create_outcome L st p i info name).fs.inodestore j).file_size =
        (if j = st.sb.inodes_count then info.file_size else (st.inodestore j).file_size) := by
  simp only [create_outcome, set_at]
  by_cases h1 : j = p - 1
  · have h2 : ¬ j = st.sb.inodes_count := by omega
    simp only [if_pos h1, if_neg h2]
    rw [h1]
    exact ⟨rfl, rfl, rfl, rfl⟩
  · simp only [if_neg h1]
    by_cases h2 : j = st.sb.inodes_count
    · simp only [if_pos h2, and_self]
    · simp only [if_neg h2, and_self]

/-- The invariant survives a creation that takes a block below 31. -/
theorem Inv_create_outcome (L : Layout) (st : FS) (hI : Inv st) (i : Nat)
    (hfree : lowest_free st.sb.free_blocks i) (p : Nat) (hp1 : 1 ≤ p)
    (hp2 : p ≤ st.sb.inodes_count)
    (hn : st.sb.inodes_count < ASSOOFS_MAX_FILESYSTEM_OBJECTS_SUPPORTED)
    (info : assoofs_inode_info) (hinfo : info.inode_no = st.sb.inodes_count + 1)
    (name : List Nat) : Inv (create_outcome L st p i info name).fs := by
  obtain ⟨_, h1, h2, h3⟩ := hI
  obtain ⟨_, hi31, hset, _⟩ := hfree
  have hcount : (create_outcome L st p i info name).fs.sb.inodes_count =
      st.sb.inodes_count + 1 := rfl
  have hfb : (create_outcome L st p i info name).fs.sb.free_blocks =
      st.sb.free_blocks &&& (2 ^ 64 - (2 ^ i + 1)) := rfl
  refine ⟨by rw [hcount]; omega, ?_, ?_, ?_⟩
  · intro j hj
    rw [hcount] at hj
    rw [(create_outcome_store L st p i info name hp1 hp2 j).2.1]
    by_cases hjn : j = st.sb.inodes_count
    · rw [if_pos hjn, hinfo, hjn]
    · rw [if_neg hjn]; exact h1 j (by omega)
  · intro j hj
    rw [hcount] at hj
    rw [(create_outcome_store L st p i info name hp1 hp2 j).1, hfb, testBit_clear _ _ _ (by omega)]
    by_cases hjn : j = st.sb.inodes_count
    · rw [if_pos hjn]; simp
    · rw [if_neg hjn, h2 j (by omega)]; simp
  · intro a ha b hb
    rw [hcount] at ha hb
    rw [(create_outcome_store L st p i info name hp1 hp2 a).1,
      (create_outcome_store L st p i info name hp1 hp2 b).1]
    by_cases han : a = st.sb.inodes_count <;> by_cases hbn : b = st.sb.inodes_count
    · intro _; omega
    · rw [if_pos han, if_neg hbn]
      intro e
      have := h2 b (by omega)
      rw [← e, hset] at this
      exact Bool.noConfusion this
    · rw [if_neg han, if_pos hbn]
      intro e
      have := h2 a (by omega)
      rw [e, hset] at this
      exact Bool.noConfusion this
    · rw [if_neg han, if_neg hbn]
      exact h3 a (by omega) b (by omega)

theorem new_block_below (L : Layout) (b : Block) (k v : Nat) (name : List Nat) (a : Nat)
    (h : a < k * L.entry_size) :
    strcpy (store64 b (k * L.entry_size + L.inode_no_off) v) (k * L.entry_size) name a = b a := by
  rw [strcpy_outside _ _ _ _ (Or.inl h), store64_outside _ _ _ _ (Or.inl (by omega))]

/-- A name listed before a creation is listed after it, with the same number. -/
theorem has_entry_stable (L : Layout) (hL : L.WF) (st : FS) (hI : Inv st) (p i : Nat)
    (hp1 : 1 ≤ p) (hp2 : p ≤ st.sb.inodes_count) (info : assoofs_inode_info) (name : List Nat)
    (q : Nat) (nm : List Nat) (ino : Nat) (h : has_entry L st q nm ino) :
    has_entry L (create_outcome L st p i info name).fs q nm ino := by
  obtain ⟨hq1, hq2, hfit, hi1, hi2, hl⟩ := h
  obtain ⟨_, _, _, h3⟩ := hI
  have hcount : (create_outcome L st p i info name).fs.sb.inodes_count =
      st.sb.inodes_count + 1 := rfl
  refine ⟨hq1, by rw [hcount]; omega, hfit, hi1, by rw [hcount]; omega, ?_⟩
  by_cases hqp : q = p
  · subst hqp
    have hs : (create_outcome L st q i info name).fs.inodestore (q - 1) =
        { st.inodestore (q - 1) with
          dir_children_count := (st.inodestore (q - 1)).dir_children_count + 1 } := by
      simp [create_outcome, set_at]
    rw [hs]
    simp only [create_outcome, set_at, if_true]
    rw [lookup_loop_last, lookup_loop_congr L hL _ (st.blocks (st.inodestore (q - 1)).data_block_number)
      nm hfit _ 0 (fun a _ ha => new_block_below L _ _ _ _ a (by simpa using ha)), hl]
  · have hne : q - 1 ≠ p - 1 := by omega
    have hs : (create_outcome L st p i info name).fs.inodestore (q - 1) =
        st.inodestore (q - 1) := by
      simp only [create_outcome, set_at]
      rw [if_neg hne, if_neg (by omega)]
    rw [hs]
    have hb : (st.inodestore (q - 1)).data_block_number ≠
        (st.inodestore (p - 1)).data_block_number :=
      fun e => hne (h3 (q - 1) (by omega) (p - 1) (by omega) e)
    simp only [create_outcome, set_at]
    rw [if_neg hb]
    exact hl

/-- A call within the limits has the outcome `create_outcome` describes. -/
theorem do_call_low (L : Layout) (hL : L.WF) (st : FS) (hI : Inv st) (c : Call)
    (hok : call_ok L st c) :
    ∃ i info, lowest_free st.sb.free_blocks i ∧ 1 ≤ c.parent ∧
      c.parent ≤ st.sb.inodes_count ∧ info.inode_no = st.sb.inodes_count + 1 ∧
      lookup_loop L (st.blocks (st.inodestore (c.parent - 1)).data_block_number) c.name
        (st.inodestore (c.parent - 1)).dir_children_count 0 = none ∧
      do_call L st c = some (create_outcome L st c.parent i info c.name) := by
  obtain ⟨hn, ⟨i, _, hfree⟩, _, hpar⟩ := hok
  rw [get_inode_info_inv st hI] at hpar
  by_cases hp : 1 ≤ c.parent ∧ c.parent ≤ st.sb.inodes_count
  · rw [if_pos hp] at hpar
    obtain ⟨hroom, hnone⟩ := hpar
    have hk : (st.inodestore (c.parent - 1)).dir_children_count + 1 < U64 := by
      have h1 : (st.inodestore (c.parent - 1)).dir_children_count + 1 ≤
          ((st.inodestore (c.parent - 1)).dir_children_count + 1) * L.entry_size :=
        Nat.le_mul_of_pos_right _ (by have := hL.2.2.1; omega)
      have := hL.2.2.2
      omega
    have hn' : ¬ st.sb.inodes_count ≥ ASSOOFS_MAX_FILESYSTEM_OBJECTS_SUPPORTED := by omega
    cases hkind : c.kind with
    | create =>
      refine ⟨i,
        { c.obj with inode_no := st.sb.inodes_count + 1, mode := c.mode, file_size := 0 },
        hfree, hp.1, hp.2, rfl, hnone, ?_⟩
      unfold do_call
      rw [get_inode_info_inv st hI, if_pos hp]
      simp only [hkind]
      unfold assoofs_create
      simp only [if_neg hn']
      rw [finish_create_low L st hI i hfree c.parent hp.1 hp.2 hk hn _ rfl]
    | mkdir =>
      refine ⟨i,
        { c.obj with
          inode_no := st.sb.inodes_count + 1, dir_children_count := 0
          mode := S_IFDIR ||| c.mode, file_size := 0 },
        hfree, hp.1, hp.2, rfl, hnone, ?_⟩
      unfold do_call
      rw [get_inode_info_inv st hI, if_pos hp]
      simp only [hkind]
      unfold assoofs_mkdir
      simp only [if_neg hn']
      rw [finish_create_low L st hI i hfree c.parent hp.1 hp.2 hk hn _ rfl]
  · rw [if_neg hp] at hpar
    exact absurd hpar (fun h => h)

/-- Along a sequence of calls within the limits the invariant holds, listed
names stay listed with the same number, and the records of the store keep
their number, block, mode and size. -/
theorem run_keeps (L : Layout) (hL : L.WF) : ∀ (cs : List Call) (st : FS), Inv st →
    admissible L st cs →
    Inv (run L st cs) ∧ st.sb.inodes_count ≤ (run L st cs).sb.inodes_count ∧
      (∀ q nm ino, has_entry L st q nm ino → has_entry L (run L st cs) q nm ino) ∧
      (∀ j < st.sb.inodes_count,
        ((run L st cs).inodestore j).inode_no = (st.inodestore j).inode_no ∧
        ((run L st cs).inodestore j).data_block_number = (st.inodestore j).data_block_number ∧
        ((run L st cs).inodestore j).mode = (st.inodestore j).mode ∧
        ((run L st cs).inodestore j).file_size = (st.inodestore j).file_size) := by
  intro cs
  induction cs with
  | nil => intro st hI _; exact ⟨hI, Nat.le_refl _, fun _ _ _ h => h, fun _ _ => ⟨rfl, rfl, rfl, rfl⟩⟩
  | cons c cs ih =>
    intro st hI hadm
    obtain ⟨hok, hrest⟩ := hadm
    obtain ⟨i, info, hfree, hp1, hp2, hinfo, _, hdo⟩ := do_call_low L hL st hI c hok
    have hstep : step L st c = (create_outcome L st c.parent i info c.name).fs := by
      unfold step; rw [hdo]
    rw [hstep] at hrest
    have hI' := Inv_create_outcome L st hI i hfree c.parent hp1 hp2 hok.1 info hinfo c.name
    obtain ⟨k1, k2, k3, k4⟩ := ih _ hI' hrest
    have hcount : (create_outcome L st c.parent i info c.name).fs.sb.inodes_count =
        st.sb.inodes_count + 1 := rfl
    simp only [run, hstep]
    refine ⟨k1, by omega, ?_, ?_⟩
    · intro q nm ino h
      exact k3 q nm ino (has_entry_stable L hL st hI c.parent i hp1 hp2 info c.name q nm ino h)
    · intro j hj
      have h4 := k4 j (by omega)
      have hs := create_outcome_store L st c.parent i info c.name hp1 hp2 j
      have hjn : ¬ j = st.sb.inodes_count := by omega
      simp only [if_neg hjn] at hs
      rw [h4.1, h4.2.1, h4.2.2.1, h4.2.2.2, hs.1, hs.2.1, hs.2.2.1, hs.2.2.2]
      exact ⟨rfl, rfl, rfl, rfl⟩

theorem Inv_of_Fresh (st : FS) (h : Fresh st) : Inv st := by
  obtain ⟨h1, h2, _, h4⟩ := h
  unfold ASSOOFS_ROOTDIR_INODE_NUMBER at h2
  refine ⟨by rw [h1]; unfold ASSOOFS_MAX_FILESYSTEM_OBJECTS_SUPPORTED; omega, ?_, ?_, ?_⟩
  · intro i hi
    have : i = 0 := by omega
    rw [this, h2]
  · intro i hi
    have : i = 0 := by omega
    rw [this, h4]
  · intro i hi j hj _
    omega

theorem freeblock_loop_bounds (fb : Nat) : ∀ (fuel i : Nat),
    i ≤ freeblock_loop fb fuel i ∧
      freeblock_loop fb fuel i ≤ max i ASSOOFS_MAX_FILESYSTEM_OBJECTS_SUPPORTED := by
  intro fuel
  induction fuel with
  | zero => intro i; exact ⟨Nat.le_refl _, Nat.le_max_left _ _⟩
  | succ n ih =>
    intro i
    unfold freeblock_loop
    split
    · next hlt =>
      split
      · exact ⟨Nat.le_refl _, Nat.le_max_left _ _⟩
      · have := ih (i + 1)
        have hm : max (i + 1) ASSOOFS_MAX_FILESYSTEM_OBJECTS_SUPPORTED =
            ASSOOFS_MAX_FILESYSTEM_OBJECTS_SUPPORTED := Nat.max_eq_right (by omega)
        have hm' : max i ASSOOFS_MAX_FILESYSTEM_OBJECTS_SUPPORTED =
            ASSOOFS_MAX_FILESYSTEM_OBJECTS_SUPPORTED := Nat.max_eq_right (by omega)
        rw [hm] at this
        rw [hm']
        exact ⟨by omega, this.2⟩
    · exact ⟨Nat.le_refl _, Nat.le_max_left _ _⟩

/-- The block index the allocator hands out lies between 2 and 64, and the
allocator only clears bits of the bitmap. -/
theorem get_a_freeblock_bounds (sb : assoofs_super_block_info) :
    2 ≤ (assoofs_sb_get_a_freeblock sb).2.1 ∧ (assoofs_sb_get_a_freeblock sb).2.1 ≤ 64 ∧
      ∀ j, (assoofs_sb_get_a_freeblock sb).2.2.free_blocks.testBit j = true →
        sb.free_blocks.testBit j = true := by
  have h := freeblock_loop_bounds sb.free_blocks ASSOOFS_MAX_FILESYSTEM_OBJECTS_SUPPORTED 2
  have hm : max 2 ASSOOFS_MAX_FILESYSTEM_OBJECTS_SUPPORTED = 64 := rfl
  rw [hm] at h
  refine ⟨h.1, h.2, ?_⟩
  intro j hj
  unfold assoofs_sb_get_a_freeblock at hj
  simp only [Nat.testBit_and, Bool.and_eq_true] at hj
  exact hj.1

theorem search_loop_absent (store : Nat → assoofs_inode_info) (ino n : Nat) :
    ∀ (fuel c : Nat), c ≤ n → n ≤ c + fuel →
      (∀ j, c ≤ j → j < n → (store j).inode_no ≠ ino) →
      search_loop store ino n fuel c = n := by
  intro fuel
  induction fuel with
  | zero => intro c h1 h2 _; unfold search_loop; omega
  | succ f ih =>
    intro c h1 h2 h3
    unfold search_loop
    by_cases hcn : c = n
    · rw [if_neg (by omega)]; exact hcn
    · rw [if_pos ⟨h3 c (Nat.le_refl c) (by omega), by omega⟩]
      exact ih (c + 1) (by omega) (by omega) (fun j hj1 hj2 => h3 j (by omega) hj2)

/-- Saving a record overwrites the first slot among `[0, inodes_count)` that
carries its number, and nothing else. -/
theorem save_inode_info_found (st : FS) (r : assoofs_inode_info) (t : Nat)
    (ht : t < st.sb.inodes_count) (hm : (st.inodestore t).inode_no = r.inode_no)
    (hfirst : ∀ j < t, (st.inodestore j).inode_no ≠ r.inode_no) :
    assoofs_save_inode_info st r = (0, { st with inodestore := set_at st.inodestore t r }) := by
  have hs : search_loop st.inodestore r.inode_no st.sb.inodes_count st.sb.inodes_count 0 = t :=
    search_loop_found _ _ _ _ _ _ (Nat.zero_le _) (by omega) ht (fun j _ hj => hfirst j hj) hm
  unfold assoofs_save_inode_info assoofs_search_inode_info
  simp only [hs, hm, if_true]

/-- Saving a record fails with `-EPERM` and changes nothing when no slot among
`[0, inodes_count]`, the slot past the valid ones included, carries its
number. -/
theorem save_inode_info_absent (st : FS) (r : assoofs_inode_info)
    (h : ∀ j ≤ st.sb.inodes_count, (st.inodestore j).inode_no ≠ r.inode_no) :
    assoofs_save_inode_info st r = (-EPERM, st) := by
  have hs : search_loop st.inodestore r.inode_no st.sb.inodes_count st.sb.inodes_count 0 =
      st.sb.inodes_count :=
    search_loop_absent _ _ _ _ _ (Nat.zero_le _) (by omega) (fun j _ hj => h j (by omega))
  unfold assoofs_save_inode_info assoofs_search_inode_info
  simp only [hs, h _ (Nat.le_refl _), if_false]

theorem to_int_small (v : Nat) (h : v < 2147483648) : to_int v = (v : Int) := by
  unfold to_int
  have : v % 4294967296 = v := Nat.mod_eq_of_lt (by omega)
  rw [this, if_pos h]

/-- At offset 0 the round trip holds: a read of as many bytes as were written
returns them. -/
theorem write_then_read_at_zero (st : FS) (inode_info : assoofs_inode_info) (buf : List Nat)
    (h1 : 0 < buf.length) (h2 : buf.length < 2147483648) :
    assoofs_read (assoofs_write st inode_info buf 0).fs
        (assoofs_write st inode_info buf 0).inode_info buf.length 0 =
      { ret := buf.length, buf := buf, ppos := buf.length } := by
  unfold assoofs_write assoofs_read
  simp only [Nat.zero_add, (save_inode_info_frame _ _).1, set_at, if_true, Nat.min_self,
    to_int_small _ h2, Int.toNat_ofNat]
  rw [if_neg (by omega)]
  have : read_bytes (write_bytes (st.blocks inode_info.data_block_number) 0 buf) 0 buf.length =
      buf := by
    apply read_bytes_eq
    intro j hj
    exact write_bytes_inside _ 0 buf j hj
  rw [this]
  simp

/-! ## The superblock across the operations -/

theorem testBit_land_false (fb m j : Nat) (h : fb.testBit j = false) :
    (fb &&& m).testBit j = false := by
  rw [Nat.testBit_and, h, Bool.false_and]

theorem finish_create_sb (L : Layout) (st : FS) (dir inode_info : assoofs_inode_info)
    (name : List Nat) :
    (finish_create L st dir inode_info name).fs.sb =
      { st.sb with
        free_blocks := (assoofs_sb_get_a_freeblock st.sb).2.2.free_blocks
        inodes_count := (st.sb.inodes_count + 1) % U64 } := by
  unfold finish_create
  have h : (assoofs_sb_get_a_freeblock st.sb).1 = 0 := rfl
  simp only [h, ne_eq, not_true_eq_false, if_false]
  unfold append_dir_entry
  simp only [(save_inode_info_frame _ _).2]
  rfl

theorem sb_preserved_finish_create (L : Layout) (st : FS) (dir inode_info : assoofs_inode_info)
    (name : List Nat)
    (hc : st.sb.inodes_count < ASSOOFS_MAX_FILESYSTEM_OBJECTS_SUPPORTED) :
    sb_preserved st.sb (finish_create L st dir inode_info name).fs.sb := by
  unfold ASSOOFS_MAX_FILESYSTEM_OBJECTS_SUPPORTED at hc
  have hmod : (st.sb.inodes_count + 1) % U64 = st.sb.inodes_count + 1 :=
    Nat.mod_eq_of_lt (by unfold U64; omega)
  rw [finish_create_sb, hmod]
  refine ⟨rfl, rfl, rfl, Nat.le_succ _, ?_, ?_⟩
  · intro h; exact testBit_land_false _ _ _ h
  · intro h; exact testBit_land_false _ _ _ h

/-- C12: every operation preserves the superblock invariant, `magic`,
`version` and `block_size` kept, `inodes_count` not decreased, bits 0 and 1 of
`free_blocks` still 0 if they were 0.  The allocator does on every state.
The append `assoofs_add_inode_info` does below the ceiling of 64 inodes, where
`assoofs_create` and `assoofs_mkdir` call it.  The update
`assoofs_save_inode_info` leaves the superblock record as it was, the store
holding at most 64 inodes.  So do `assoofs_create` and `assoofs_mkdir`
preserve the invariant when the parent's block is a data block (number 2 or
more), the new directory record lies inside it and the name fits the filename
field, and `assoofs_write` leaves the superblock record as it was when the
file's block is a data block and the bytes written lie inside it.
The functions `assoofs_read`, `assoofs_iterate` and `assoofs_lookup` leave the
whole state as it was. -/
theorem operations_preserve_superblock (L : Layout) (_hL : L.WF) (st : FS)
    (dir inode_info obj : assoofs_inode_info) (name buf : List Nat) (mode ppos len : Nat)
    (ctx : dir_context) :
    sb_preserved st.sb (assoofs_sb_get_a_freeblock st.sb).2.2 ∧
    (st.sb.inodes_count < ASSOOFS_MAX_FILESYSTEM_OBJECTS_SUPPORTED →
      sb_preserved st.sb (assoofs_add_inode_info st inode_info).sb) ∧
    (st.sb.inodes_count ≤ ASSOOFS_MAX_FILESYSTEM_OBJECTS_SUPPORTED →
      (assoofs_save_inode_info st inode_info).2.sb = st.sb ∧
        sb_preserved st.sb (assoofs_save_inode_info st inode_info).2.sb) ∧
    (2 ≤ dir.data_block_number →
      (dir.dir_children_count + 1) * L.entry_size ≤ L.ASSOOFS_DEFAULT_BLOCK_SIZE →
      (cstr name).length < L.ASSOOFS_FILENAME_MAXLEN →
      sb_preserved st.sb (assoofs_create L st dir name mode obj).fs.sb ∧
        sb_preserved st.sb (assoofs_mkdir L st dir name mode obj).fs.sb) ∧
    (2 ≤ inode_info.data_block_number →
      ppos + buf.length ≤ L.ASSOOFS_DEFAULT_BLOCK_SIZE →
      st.sb.inodes_count ≤ ASSOOFS_MAX_FILESYSTEM_OBJECTS_SUPPORTED →
      (assoofs_write st inode_info buf ppos).fs.sb = st.sb ∧
        sb_preserved st.sb (assoofs_write st inode_info buf ppos).fs.sb) ∧
    (assoofs_read_fs st inode_info len ppos = st ∧
      sb_preserved st.sb (assoofs_read_fs st inode_info len ppos).sb) ∧
    (assoofs_iterate_fs L st inode_info ctx = st ∧
      sb_preserved st.sb (assoofs_iterate_fs L st inode_info ctx).sb) ∧
    (assoofs_lookup_fs L st dir name = st ∧
      sb_preserved st.sb (assoofs_lookup_fs L st dir name).sb) := by
  have hrefl : sb_preserved st.sb st.sb :=
    ⟨rfl, rfl, rfl, Nat.le_refl _, fun h => h, fun h => h⟩
  refine ⟨?_, ?_, ?_, ?_, ?_, ⟨rfl, hrefl⟩, ⟨rfl, hrefl⟩, ⟨rfl, hrefl⟩⟩
  · exact ⟨rfl, rfl, rfl, Nat.le_refl _, fun h => testBit_land_false _ _ _ h,
      fun h => testBit_land_false _ _ _ h⟩
  · intro h
    unfold ASSOOFS_MAX_FILESYSTEM_OBJECTS_SUPPORTED at h
    have hmod : (st.sb.inodes_count + 1) % U64 = st.sb.inodes_count + 1 :=
      Nat.mod_eq_of_lt (by unfold U64; omega)
    unfold assoofs_add_inode_info assoofs_save_sb_info
    simp only [hmod]
    exact ⟨rfl, rfl, rfl, Nat.le_succ _, fun h => h, fun h => h⟩
  · intro _
    have e := (save_inode_info_frame st inode_info).2
    exact ⟨e, by rw [e]; exact hrefl⟩
  · intro _ _ _
    constructor
    · unfold assoofs_create
      by_cases hc : st.sb.inodes_count ≥ ASSOOFS_MAX_FILESYSTEM_OBJECTS_SUPPORTED
      · simp only [if_pos hc]; exact hrefl
      · simp only [if_neg hc]
        exact sb_preserved_finish_create L st dir _ name (by omega)
    · unfold assoofs_mkdir
      by_cases hc : st.sb.inodes_count ≥ ASSOOFS_MAX_FILESYSTEM_OBJECTS_SUPPORTED
      · simp only [if_pos hc]; exact hrefl
      · simp only [if_neg hc]
        exact sb_preserved_finish_create L st dir _ name (by omega)
  · intro _ _ _
    have e : (assoofs_write st inode_info buf ppos).fs.sb = st.sb := by
      unfold assoofs_write
      simp only [(save_inode_info_frame _ _).2]
    exact ⟨e, by rw [e]; exact hrefl⟩

/-- C12 on the sample device with a file: the hypotheses hold for a creation
of `a` in the root directory and for a write of one byte at position 1 of the
file, and both preserve the superblock invariant. -/
theorem operations_preserve_superblock_witness :
    stdLayout.WF ∧
      (2 ≤ sample_root.data_block_number ∧
        (sample_root.dir_children_count + 1) * stdLayout.entry_size ≤
          stdLayout.ASSOOFS_DEFAULT_BLOCK_SIZE ∧
        (cstr [97]).length < stdLayout.ASSOOFS_FILENAME_MAXLEN) ∧
      (2 ≤ sample_file.data_block_number ∧
        1 + [72].length ≤ stdLayout.ASSOOFS_DEFAULT_BLOCK_SIZE ∧
        sample_fs_file.sb.inodes_count ≤ ASSOOFS_MAX_FILESYSTEM_OBJECTS_SUPPORTED) ∧
      sb_preserved sample_fs_file.sb
        (assoofs_create stdLayout sample_fs_file sample_root [97] 493 zero_info).fs.sb ∧
      sb_preserved sample_fs_file.sb
        (assoofs_mkdir stdLayout sample_fs_file sample_root [97] 493 zero_info).fs.sb ∧
      (assoofs_write sample_fs_file sample_file [72] 1).fs.sb = sample_fs_file.sb :=
  have h := operations_preserve_superblock stdLayout (by decide) sample_fs_file sample_root
    sample_file zero_info [97] [72] 493 1 2 { pos := 0, emitted := [] }
  have hc := h.2.2.2.1 (by decide) (by decide) (by decide)
  have hw := h.2.2.2.2.1 (by decide) (by decide) (by decide)
  ⟨by decide, ⟨by decide, by decide, by decide⟩, ⟨by decide, by decide, by decide⟩,
    hc.1, hc.2, hw.1⟩

/-! ## Read and write, in full -/

theorem read_bytes_length (b : Block) (off n : Nat) : (read_bytes b off n).length = n := by
  simp [read_bytes]

theorem read_bytes_getD (b : Block) (off n j : Nat) (h : j < n) :
    (read_bytes b off n).getD j 0 = b (off + j) := by
  unfold read_bytes
  rw [List.getD_eq_getElem?_getD, List.getElem?_eq_getElem (by simpa using h)]
  simp

/-- C15: at or past the end of the file `assoofs_read` returns 0, delivers
nothing and leaves the position as it was.  Before the end it returns
`n = min(len, file_size)`, delivers `n` bytes, byte `j` of them being byte `j`
of the inode's data block whatever the position is, and advances the position
by `n`.  Here `n` fits an `int` (the request length the kernel passes does)
and lies within the block.  The function has no statement that writes to the
record or to the block, and in the embedding it returns neither. -/
theorem read_delivers_block_start (L : Layout) (st : FS) (inode_info : assoofs_inode_info)
    (len ppos : Nat) (hint : min len inode_info.file_size < 2147483648)
    (_hblk : min len inode_info.file_size ≤ L.ASSOOFS_DEFAULT_BLOCK_SIZE) :
    (inode_info.file_size ≤ ppos →
      assoofs_read st inode_info len ppos = { ret := 0, buf := [], ppos := ppos }) ∧
    (ppos < inode_info.file_size →
      (assoofs_read st inode_info len ppos).ret = (min len inode_info.file_size : Nat) ∧
      (assoofs_read st inode_info len ppos).ppos =
        (ppos : Int) + (min len inode_info.file_size : Nat) ∧
      (assoofs_read st inode_info len ppos).buf =
        read_bytes (st.blocks inode_info.data_block_number) 0 (min len inode_info.file_size) ∧
      (assoofs_read st inode_info len ppos).buf.length = min len inode_info.file_size ∧
      ∀ j < min len inode_info.file_size,
        (assoofs_read st inode_info len ppos).buf.getD j 0 =
          st.blocks inode_info.data_block_number j) := by
  have hmin : min inode_info.file_size len = min len inode_info.file_size := Nat.min_comm _ _
  constructor
  · intro h
    unfold assoofs_read
    rw [if_pos h]
  · intro h
    have hr : assoofs_read st inode_info len ppos =
        { ret := (min len inode_info.file_size : Nat)
          buf := read_bytes (st.blocks inode_info.data_block_number) 0
            (min len inode_info.file_size)
          ppos := (ppos : Int) + (min len inode_info.file_size : Nat) } := by
      unfold assoofs_read
      rw [if_neg (by omega), hmin]
      simp only [to_int_small _ hint, Int.toNat_ofNat]
    rw [hr]
    refine ⟨rfl, rfl, rfl, read_bytes_length _ _ _, ?_⟩
    intro j hj
    simp only
    rw [read_bytes_getD _ _ _ _ hj, Nat.zero_add]

/-- C15 on the sample file of 3 bytes: a read of 2 bytes at position 1
returns the first two bytes of the block. -/
theorem read_delivers_block_start_witness :
    min 2 sample_file.file_size < 2147483648 ∧
      min 2 sample_file.file_size ≤ stdLayout.ASSOOFS_DEFAULT_BLOCK_SIZE ∧
      (assoofs_read sample_fs_file sample_file 2 1).buf =
        read_bytes (sample_fs_file.blocks sample_file.data_block_number) 0
          (min 2 sample_file.file_size) ∧
      assoofs_read sample_fs_file sample_file 2 1 = { ret := 2, buf := [104, 105], ppos := 3 } :=
  ⟨by decide, by decide,
    ((read_delivers_block_start stdLayout sample_fs_file sample_file 2 1 (by decide)
      (by decide)).2 (by decide)).2.2.1, by decide⟩

theorem lookup_loop_first (L : Layout) (bh : Block) (name : List Nat) :
    ∀ (n s i : Nat), s ≤ i → i < s + n → strcmp_eq bh (i * L.entry_size) name = true →
      (∀ j, s ≤ j → j < i → strcmp_eq bh (j * L.entry_size) name = false) →
      lookup_loop L bh name n s = some (load64 bh (i * L.entry_size + L.inode_no_off)) := by
  intro n
  induction n with
  | zero => intro s i h1 h2; omega
  | succ n ih =>
    intro s i h1 h2 h3 h4
    unfold lookup_loop
    by_cases hsi : s = i
    · subst hsi; rw [if_pos h3]
    · rw [if_neg (by rw [h4 s (Nat.le_refl s) (by omega)]; exact Bool.false_ne_true)]
      exact ih (s + 1) i (by omega) (by omega) h3 (fun j hj1 hj2 => h4 j (by omega) hj2)

theorem lookup_loop_miss (L : Layout) (bh : Block) (name : List Nat) :
    ∀ (n s : Nat), (∀ j, s ≤ j → j < s + n → strcmp_eq bh (j * L.entry_size) name = false) →
      lookup_loop L bh name n s = none := by
  intro n
  induction n with
  | zero => intro s _; rfl
  | succ n ih =>
    intro s h
    unfold lookup_loop
    rw [if_neg (by rw [h s (Nat.le_refl s) (by omega)]; exact Bool.false_ne_true)]
    exact ih (s + 1) (fun j hj1 hj2 => h j (by omega) (by omega))

/-- C14: `assoofs_lookup` looks at the first `dir_children_count` records of
the parent's block only.  If record `i` among them is the first whose filename
compares equal to the name (`strcmp`, so equal as C strings, see
`strcmp_eq_iff`), the lookup goes on with the `inode_no` field of that record;
when that number fits an `int` and slot `t` is the first of the store among
`[0, inodes_count)` to carry it, the dentry gets an inode with that number and
the record of slot `t`.  If none of the first `dir_children_count` records
compares equal, no inode is attached, whatever the block holds further on. -/
theorem lookup_takes_first_match (L : Layout) (st : FS) (parent_info : assoofs_inode_info)
    (name : List Nat) :
    (∀ i, i < parent_info.dir_children_count →
      strcmp_eq (st.blocks parent_info.data_block_number) (i * L.entry_size) name = true →
      (∀ j < i,
        strcmp_eq (st.blocks parent_info.data_block_number) (j * L.entry_size) name = false) →
      assoofs_lookup L st parent_info name =
          assoofs_get_inode st
            (load64 (st.blocks parent_info.data_block_number)
              (i * L.entry_size + L.inode_no_off)) ∧
        ∀ t, load64 (st.blocks parent_info.data_block_number)
              (i * L.entry_size + L.inode_no_off) < 2147483648 →
          t < st.sb.inodes_count →
          (st.inodestore t).inode_no =
            load64 (st.blocks parent_info.data_block_number)
              (i * L.entry_size + L.inode_no_off) →
          (∀ j < t, (st.inodestore j).inode_no ≠
            load64 (st.blocks parent_info.data_block_number)
              (i * L.entry_size + L.inode_no_off)) →
          assoofs_lookup L st parent_info name =
            LookupResult.attached
              (load64 (st.blocks parent_info.data_block_number)
                (i * L.entry_size + L.inode_no_off))
              (st.inodestore t)) ∧
    ((∀ j < parent_info.dir_children_count,
        strcmp_eq (st.blocks parent_info.data_block_number) (j * L.entry_size) name = false) →
      assoofs_lookup L st parent_info name = LookupResult.not_found) := by
  constructor
  · intro i hi hmatch hfirst
    have hl := lookup_loop_first L (st.blocks parent_info.data_block_number) name
      parent_info.dir_children_count 0 i (Nat.zero_le _) (by omega) hmatch
      (fun j _ hj => hfirst j hj)
    have hlook : assoofs_lookup L st parent_info name =
        assoofs_get_inode st
          (load64 (st.blocks parent_info.data_block_number)
            (i * L.entry_size + L.inode_no_off)) := by
      unfold assoofs_lookup
      rw [hl]
    refine ⟨hlook, ?_⟩
    intro t hsmall ht hm hno
    rw [hlook]
    unfold assoofs_get_inode assoofs_get_inode_info
    rw [through_int_small _ hsmall,
      get_inode_info_loop_found _ _ _ 0 t (Nat.zero_le _) (by omega) (fun j _ hj => hno j hj) hm]
  · intro hnone
    unfold assoofs_lookup
    rw [lookup_loop_miss L _ name _ 0 (fun j _ hj => hnone j (by omega))]

/-- The root block of the sample device holds a record named `a` in slot 0,
but with `dir_children_count = 0` the lookup of `a` attaches no inode; with a
count of 1 it resolves to inode 2. -/
theorem lookup_ignores_records_past_count :
    strcmp_eq (sample_fs_stale.blocks 2) 0 [97] = true ∧
      assoofs_lookup stdLayout sample_fs_stale sample_root [97] = LookupResult.not_found ∧
      assoofs_lookup stdLayout sample_fs_stale { sample_root with dir_children_count := 1 } [97] =
        LookupResult.attached 2 sample_file := by
  decide

/-! ## The effects of a creation -/

/-- C11, the code at the failing input: on a formatted device with one free
block (block 3), three calls of `assoofs_create` in the root directory, all
returning 0, leave four inodes; the second and the third new record both have
data block 64, which is no index of the 64-bit bitmap, so the invariant of the
records does not hold in the state reached. -/
theorem exhausted_bitmap_breaks_records :
    Fresh (sample_fs 1 8) ∧
      ((run stdLayout (sample_fs 1 8) [sample_create, sample_second, sample_third]).sb.inodes_count,
        (run stdLayout (sample_fs 1 8) [sample_create, sample_second, sample_third]).sb.free_blocks,
        ((run stdLayout (sample_fs 1 8) [sample_create, sample_second, sample_third]).inodestore
          1).data_block_number,
        ((run stdLayout (sample_fs 1 8) [sample_create, sample_second, sample_third]).inodestore
          2).data_block_number,
        ((run stdLayout (sample_fs 1 8) [sample_create, sample_second, sample_third]).inodestore
          3).data_block_number) = (4, 0, 3, 64, 64) ∧
      ¬ record_invariant
        (run stdLayout (sample_fs 1 8) [sample_create, sample_second, sample_third]) := by
  refine ⟨by unfold Fresh; decide, by decide, ?_⟩
  intro h
  have h2 := (h.2 2 (by decide)).1
  have e : ((run stdLayout (sample_fs 1 8)
      [sample_create, sample_second, sample_third]).inodestore 2).data_block_number = 64 := by
    decide
  omega

set_option maxRecDepth 100000 in
/-- On a formatted device with the blocks 3 to 63 free, thirty calls (a
directory, fourteen files in the root, fifteen files in the directory) leave
31 inodes; the record of the twenty-ninth call has block 31 and the record of
the thirtieth call has block 64. -/
theorem thirty_calls_reach_block_64 :
    sample_thirty.length = 30 ∧
      ((run stdLayout (sample_fs 1 (2 ^ 64 - 8)) sample_thirty).sb.inodes_count,
        ((run stdLayout (sample_fs 1 (2 ^ 64 - 8)) sample_thirty).inodestore
          29).data_block_number,
        ((run stdLayout (sample_fs 1 (2 ^ 64 - 8)) sample_thirty).inodestore
          30).data_block_number,
        ((run stdLayout (sample_fs 1 (2 ^ 64 - 8)) sample_thirty).inodestore
          30).inode_no) = (31, 31, 64, 31) := by
  decide

/-- Within the limits the records keep distinct numbers and blocks marked
used: after a sequence of calls served within the limits on a freshly
formatted filesystem, slot `i` holds inode `i + 1`, no two records share a
block, and the bit of each record's block is 0. -/
theorem records_within_limits (L : Layout) (hL : L.WF) (st : FS) (hf : Fresh st)
    (cs : List Call) (hadm : admissible L st cs) :
    (∀ i < (run L st cs).sb.inodes_count, ∀ j < (run L st cs).sb.inodes_count,
      ((run L st cs).inodestore i).inode_no = ((run L st cs).inodestore j).inode_no → i = j) ∧
    (∀ i < (run L st cs).sb.inodes_count,
      (run L st cs).sb.free_blocks.testBit ((run L st cs).inodestore i).data_block_number =
        false) ∧
    (∀ i < (run L st cs).sb.inodes_count, ∀ j < (run L st cs).sb.inodes_count,
      ((run L st cs).inodestore i).data_block_number =
        ((run L st cs).inodestore j).data_block_number → i = j) := by
  obtain ⟨_, h1, h2, h3⟩ := (run_keeps L hL cs st (Inv_of_Fresh st hf) hadm).1
  refine ⟨?_, h2, h3⟩
  intro i hi j hj e
  rw [h1 i hi, h1 j hj] at e
  omega

/-- A write through the record of inode `f` of the store keeps the invariant
of the store. -/
theorem Inv_write (st : FS) (hI : Inv st) (f : Nat) (hf1 : 1 ≤ f) (hf2 : f ≤ st.sb.inodes_count)
    (buf : List Nat) (ppos : Nat) :
    Inv (assoofs_write st (st.inodestore (f - 1)) buf ppos).fs := by
  obtain ⟨h0, h1, h2, h3⟩ := hI
  have hfs : (assoofs_write st (st.inodestore (f - 1)) buf ppos).fs =
      FS.mk st.sb
        (set_at st.inodestore (f - 1)
          (assoofs_inode_info.mk (st.inodestore (f - 1)).mode (st.inodestore (f - 1)).inode_no
            (st.inodestore (f - 1)).data_block_number (ppos + buf.length)
            (st.inodestore (f - 1)).dir_children_count))
        (set_at st.blocks (st.inodestore (f - 1)).data_block_number
          (write_bytes (st.blocks (st.inodestore (f - 1)).data_block_number) ppos buf)) := by
    have hsave := save_inode_info_found
      (FS.mk st.sb st.inodestore (set_at st.blocks (st.inodestore (f - 1)).data_block_number
        (write_bytes (st.blocks (st.inodestore (f - 1)).data_block_number) ppos buf)))
      (assoofs_inode_info.mk (st.inodestore (f - 1)).mode (st.inodestore (f - 1)).inode_no
        (st.inodestore (f - 1)).data_block_number (ppos + buf.length)
        (st.inodestore (f - 1)).dir_children_count) (f - 1)
      (by show f - 1 < st.sb.inodes_count; omega) rfl
      (by
        intro j hj
        show (st.inodestore j).inode_no ≠ (st.inodestore (f - 1)).inode_no
        rw [h1 j (by omega), h1 (f - 1) (by omega)]
        omega)
    unfold assoofs_write
    simp only
    rw [hsave]
  rw [hfs]
  have hfield : ∀ j, (set_at st.inodestore (f - 1)
      (assoofs_inode_info.mk (st.inodestore (f - 1)).mode (st.inodestore (f - 1)).inode_no
        (st.inodestore (f - 1)).data_block_number (ppos + buf.length)
        (st.inodestore (f - 1)).dir_children_count) j).inode_no = (st.inodestore j).inode_no ∧
      (set_at st.inodestore (f - 1)
      (assoofs_inode_info.mk (st.inodestore (f - 1)).mode (st.inodestore (f - 1)).inode_no
        (st.inodestore (f - 1)).data_block_number (ppos + buf.length)
        (st.inodestore (f - 1)).dir_children_count) j).data_block_number =
        (st.inodestore j).data_block_number := by
    intro j
    simp only [set_at]
    by_cases hj : j = f - 1
    · rw [if_pos hj, hj]; exact ⟨rfl, rfl⟩
    · rw [if_neg hj]; exact ⟨rfl, rfl⟩
  refine ⟨h0, ?_, ?_, ?_⟩
  · intro i hi
    rw [(hfield i).1]; exact h1 i hi
  · intro i hi
    rw [(hfield i).2]; exact h2 i hi
  · intro i hi j hj
    rw [(hfield i).2, (hfield j).2]; exact h3 i hi j hj

end Assoofs
